import Mathlib

/-!
# Verification of the call-routing and agent-state coordination engine

A shallow embedding of the in-memory call-routing core of the
`acs-dynamic-queue-calling` repository: `AgentService`
(`backend/src/services/agentService.ts`), `GroupService`
(`backend/src/services/groupService.ts`) and `CallService`
(`backend/src/services/callService.ts`), together with theorems about the
routing, reservation, release, overflow and transfer operations.

Modelling conventions, stated once here and referenced below:

* A JavaScript `Map<string, T>` is modelled as an insertion-ordered
  association list `List (Nat × T)`; `Map.get` returns the first entry with
  the given key, `Map.set` replaces the entry in place when the key is
  present and appends otherwise — exactly the iteration-order semantics of
  a JS `Map` (whose keys are unique).
* Entity ids are `uuidv4()` strings in the source; uuid generation is an
  external random source, modelled by a fresh-id counter `nextId` carried
  in the system state.  Phone numbers, names, etc. stay `String`.
* `Date` values are epoch milliseconds (`Nat`); every operation that reads
  the wall clock (`new Date()`) takes the current instant `now : Nat` as an
  explicit parameter.  A JS duration (`getTime()` difference) is an `Int`.
* External I/O — the Azure Communication Services control plane
  (`acsService.answerCall` / `acsService.endCall`) — is a collaborator whose
  outcome is a `Bool` parameter of the operation; WebSocket fan-out
  (`webSocketService.notifyAgent` / `broadcast`) is fire-and-forget I/O with
  no effect on the service state and is not modelled.
* Floating-point statistics (`totalCallDuration`, `averageCallDuration`,
  the `duration / 1000` conversion) are modelled over `ℚ`.
-/

namespace ACS

/-! ## JS `Map` as an insertion-ordered association list -/

/-- `Map.get`: first entry with the given key. -/
def mapGet {α : Type} : List (Nat × α) → Nat → Option α
  | [], _ => none
  | p :: m, k => if p.1 = k then some p.2 else mapGet m k

/-- `Map.set`: replace the first entry with the given key in place,
append when absent. -/
def mapSet {α : Type} : List (Nat × α) → Nat → α → List (Nat × α)
  | [], k, v => [(k, v)]
  | p :: m, k, v => if p.1 = k then (k, v) :: m else p :: mapSet m k v

/-- `Array.from(map.values())`: the values in insertion order. -/
def mapValues {α : Type} (m : List (Nat × α)) : List α :=
  m.map (·.2)

/-! ## Data model (`backend/src/models/types.ts`, mirrored in
`supervisor-webapp/src/app/models/types.ts`) -/

inductive AgentStatus where
  | available
  | busy
  | offline
  | in_call
deriving DecidableEq, Repr, Inhabited

inductive CallStatus where
  | incoming
  | ringing
  | connected
  | ended
  | transferred
deriving DecidableEq, Repr, Inhabited

structure AgentStatistics where
  totalCalls : Nat
  totalCallDuration : ℚ
  averageCallDuration : ℚ
  callsToday : Nat
  callsThisWeek : Nat
  callsThisMonth : Nat
  lastCallTime : Option Nat := none
deriving DecidableEq, Repr, Inhabited

structure Agent where
  id : Nat
  name : String
  email : String
  username : String
  password : String
  status : AgentStatus
  groupIds : List Nat
  currentCallId : Option Nat := none
  lastActivity : Nat
  statistics : AgentStatistics
deriving DecidableEq, Repr, Inhabited

structure GroupStatistics where
  totalCalls : Nat
  averageWaitTime : ℚ
  callsInQueue : Nat
  busyAgents : Nat
  availableAgents : Nat
  totalAgents : Nat
deriving DecidableEq, Repr, Inhabited

structure Group where
  id : Nat
  name : String
  location : String
  phoneNumber : String
  agentIds : List Nat
  overflowGroupIds : List Nat
  overflowEnabled : Bool
  statistics : GroupStatistics
deriving DecidableEq, Repr, Inhabited

structure Call where
  id : Nat
  phoneNumber : String
  groupId : Nat
  assignedAgentId : Option Nat := none
  status : CallStatus
  startTime : Nat
  endTime : Option Nat := none
  duration : Option Int := none
  waitTime : Option Int := none
  acsCallConnectionId : Option String := none
  acsIncomingCallContext : Option String := none
deriving DecidableEq, Repr, Inhabited

structure CreateAgentRequest where
  name : String
  email : String
  username : String
  password : String
  groupIds : List Nat
deriving DecidableEq, Repr

/-- The partial-update payload accepted by `AgentService.updateAgent`;
`none` means the field is absent from the update object.  The source also
passes `currentCallId` and `statistics` through `updateAgent`
(`assignCallToAgent` / `releaseAgentFromCall`); `currentCallId := some none`
models the explicit `currentCallId: undefined` that clears the field. -/
structure UpdateAgentRequest where
  name : Option String := none
  email : Option String := none
  username : Option String := none
  password : Option String := none
  groupIds : Option (List Nat) := none
  status : Option AgentStatus := none
  currentCallId : Option (Option Nat) := none
  statistics : Option AgentStatistics := none
deriving DecidableEq, Repr

structure CreateGroupRequest where
  name : String
  location : String
  phoneNumber : String
  overflowEnabled : Option Bool := none
  overflowGroupIds : Option (List Nat) := none
deriving DecidableEq, Repr

/-- The connection metadata `acsService.extractCallConnectionInfo` pulls out
of an incoming-call webhook payload. -/
structure AcsConnectionInfo where
  callConnectionId : Option String := none
  incomingCallContext : Option String := none
deriving DecidableEq, Repr

/-- The combined in-memory state of the three services: the private
`Map`s `AgentService.agents`, `GroupService.groups`, `CallService.calls`,
plus the fresh-id counter standing in for `uuidv4()`. -/
structure SysState where
  agents : List (Nat × Agent)
  groups : List (Nat × Group)
  calls : List (Nat × Call)
  nextId : Nat
deriving DecidableEq, Repr

def initialState : SysState :=
  { agents := [], groups := [], calls := [], nextId := 0 }

/-- JS truthiness of a possibly-absent number: `undefined` and `0` are
falsy (the `if (call.duration)` guards in `endCall` / `transferCall`). -/
def numTruthy : Option Int → Bool
  | none => false
  | some d => d != 0

namespace AgentService

/-- `AgentService.createAgent`: fresh id, status `OFFLINE`, zeroed
statistics. -/
def createAgent (s : SysState) (request : CreateAgentRequest) (now : Nat) :
    Agent × SysState :=
  let agent : Agent :=
    { id := s.nextId
      name := request.name
      email := request.email
      username := request.username
      password := request.password
      status := AgentStatus.offline
      groupIds := request.groupIds
      lastActivity := now
      statistics :=
        { totalCalls := 0
          totalCallDuration := 0
          averageCallDuration := 0
          callsToday := 0
          callsThisWeek := 0
          callsThisMonth := 0 } }
  (agent, { s with agents := mapSet s.agents agent.id agent
                   nextId := s.nextId + 1 })

/-- `AgentService.getAgent`. -/
def getAgent (s : SysState) (id : Nat) : Option Agent :=
  mapGet s.agents id

/-- `AgentService.getAgentsByGroup`: all agents whose `groupIds` include
the group, in map insertion order. -/
def getAgentsByGroup (s : SysState) (groupId : Nat) : List Agent :=
  (mapValues s.agents).filter (fun agent => groupId ∈ agent.groupIds)

/-- `AgentService.getAvailableAgentsByGroup`. -/
def getAvailableAgentsByGroup (s : SysState) (groupId : Nat) : List Agent :=
  (getAgentsByGroup s groupId).filter
    (fun agent => agent.status = AgentStatus.available)

/-- The `{ ...agent, ...updates, lastActivity: new Date() }` spread-merge
inside `AgentService.updateAgent`. -/
def applyUpdate (agent : Agent) (updates : UpdateAgentRequest) (now : Nat) :
    Agent :=
  { agent with
    name := updates.name.getD agent.name
    email := updates.email.getD agent.email
    username := updates.username.getD agent.username
    password := updates.password.getD agent.password
    groupIds := updates.groupIds.getD agent.groupIds
    status := updates.status.getD agent.status
    currentCallId :=
      match updates.currentCallId with
      | none => agent.currentCallId
      | some v => v
    statistics := updates.statistics.getD agent.statistics
    lastActivity := now }

/-- The merged agent record produced by `assignCallToAgent`'s update:
`IN_CALL`, bound to the call, activity stamped. -/
def reservedAgent (a : Agent) (callId now : Nat) : Agent :=
  { a with status := AgentStatus.in_call
           currentCallId := some callId
           lastActivity := now }

/-- `AgentService.updateAgent`. -/
def updateAgent (s : SysState) (id : Nat) (updates : UpdateAgentRequest)
    (now : Nat) : Option Agent × SysState :=
  match mapGet s.agents id with
  | none => (none, s)
  | some agent =>
    let updatedAgent := applyUpdate agent updates now
    (some updatedAgent, { s with agents := mapSet s.agents id updatedAgent })

/-- `AgentService.updateAgentStatus`: `updateAgent` restricted to the
status field. -/
def updateAgentStatus (s : SysState) (id : Nat) (status : AgentStatus)
    (now : Nat) : Option Agent × SysState :=
  updateAgent s id { status := some status } now

/-- `AgentService.assignCallToAgent`: the reservation gate — fails unless
the agent exists and is `AVAILABLE`; on success sets `IN_CALL` and
`currentCallId`. -/
def assignCallToAgent (s : SysState) (agentId : Nat) (callId : Nat)
    (now : Nat) : Bool × SysState :=
  match mapGet s.agents agentId with
  | none => (false, s)
  | some agent =>
    if agent.status ≠ AgentStatus.available then (false, s)
    else
      (true,
        (updateAgent s agentId
          { status := some AgentStatus.in_call
            currentCallId := some (some callId) } now).2)

/-- The `newStatistics` object built inside
`AgentService.releaseAgentFromCall`: running totals and average
(`(oldTotalDuration + duration) / (oldCount + 1)`) plus the bucket
counters.  The source guards each bucket with `isToday(new Date())` /
`isThisWeek(new Date())` / `isThisMonth(new Date())`; each predicate
compares the current instant against itself (both sides are `new Date()`
taken at the same moment), so the guards are identically true and the
buckets are embedded as unconditional increments. -/
def releaseStatistics (st : AgentStatistics) (callDuration : ℚ) (now : Nat) :
    AgentStatistics :=
  { st with
    totalCalls := st.totalCalls + 1
    totalCallDuration := st.totalCallDuration + callDuration
    averageCallDuration :=
      (st.totalCallDuration + callDuration) / ((st.totalCalls : ℚ) + 1)
    callsToday := st.callsToday + 1
    callsThisWeek := st.callsThisWeek + 1
    callsThisMonth := st.callsThisMonth + 1
    lastCallTime := some now }

/-- The merged agent record produced by `releaseAgentFromCall`'s update:
`AVAILABLE`, unbound, statistics folded, activity stamped. -/
def releasedAgent (a : Agent) (callDuration : ℚ) (now : Nat) : Agent :=
  { a with status := AgentStatus.available
           currentCallId := none
           statistics := releaseStatistics a.statistics callDuration now
           lastActivity := now }

/-- `AgentService.releaseAgentFromCall`: fold `callDuration` (seconds, as a
rational) into the statistics, set `AVAILABLE`, clear `currentCallId`. -/
def releaseAgentFromCall (s : SysState) (agentId : Nat) (callDuration : ℚ)
    (now : Nat) : Bool × SysState :=
  match mapGet s.agents agentId with
  | none => (false, s)
  | some agent =>
    let newStatistics := releaseStatistics agent.statistics callDuration now
    (true,
      (updateAgent s agentId
        { status := some AgentStatus.available
          currentCallId := some none
          statistics := some newStatistics } now).2)

end AgentService

namespace GroupService

/-- `GroupService.createGroup`: fresh id, empty membership, overflow list
and flag defaulted from the request (`|| []` / `|| false`), zeroed
statistics. -/
def createGroup (s : SysState) (request : CreateGroupRequest) :
    Group × SysState :=
  let group : Group :=
    { id := s.nextId
      name := request.name
      location := request.location
      phoneNumber := request.phoneNumber
      agentIds := []
      overflowGroupIds := request.overflowGroupIds.getD []
      overflowEnabled := request.overflowEnabled.getD false
      statistics :=
        { totalCalls := 0
          averageWaitTime := 0
          callsInQueue := 0
          busyAgents := 0
          availableAgents := 0
          totalAgents := 0 } }
  (group, { s with groups := mapSet s.groups group.id group
                   nextId := s.nextId + 1 })

/-- `GroupService.getGroup`. -/
def getGroup (s : SysState) (id : Nat) : Option Group :=
  mapGet s.groups id

/-- `GroupService.getGroupByPhoneNumber`: first group (in insertion order)
with the given routable number. -/
def getGroupByPhoneNumber (s : SysState) (phoneNumber : String) :
    Option Group :=
  (mapValues s.groups).find? (fun group => group.phoneNumber = phoneNumber)

/-- The `statistics` object built inside
`GroupService.updateGroupStatistics`: the spread of the old statistics
with the three derived counts recomputed from the agent directory. -/
def recomputedStatistics (s : SysState) (groupId : Nat)
    (st : GroupStatistics) : GroupStatistics :=
  let agents := AgentService.getAgentsByGroup s groupId
  let availableAgents :=
    agents.filter (fun agent => agent.status = AgentStatus.available)
  let busyAgents :=
    agents.filter (fun agent =>
      agent.status = AgentStatus.busy ∨ agent.status = AgentStatus.in_call)
  { st with
    totalAgents := agents.length
    availableAgents := availableAgents.length
    busyAgents := busyAgents.length }

/-- The group record with its statistics recomputed. -/
def recomputedGroup (s : SysState) (groupId : Nat) (group : Group) : Group :=
  { group with statistics := recomputedStatistics s groupId group.statistics }

/-- `GroupService.updateGroupStatistics`: recompute the derived
total/available/busy agent counts from the current agent directory. -/
def updateGroupStatistics (s : SysState) (groupId : Nat) : SysState :=
  match mapGet s.groups groupId with
  | none => s
  | some group =>
    { s with groups := mapSet s.groups groupId (recomputedGroup s groupId group) }

/-- The group record with the agent pushed onto its membership list. -/
def withAgentAdded (group : Group) (agentId : Nat) : Group :=
  { group with agentIds := group.agentIds ++ [agentId] }

/-- `GroupService.addAgentToGroup`: maintain both sides of the
many-to-many membership, skipping whichever side already contains the
other, then recompute the group statistics. -/
def addAgentToGroup (s : SysState) (groupId : Nat) (agentId : Nat)
    (now : Nat) : Bool × SysState :=
  match mapGet s.groups groupId, mapGet s.agents agentId with
  | some group, some agent =>
    let group1 := withAgentAdded group agentId
    let s1 :=
      if agentId ∈ group.agentIds then s
      else { s with groups := mapSet s.groups groupId group1 }
    let s2 :=
      if groupId ∈ agent.groupIds then s1
      else
        (AgentService.updateAgent s1 agentId
          { groupIds := some (agent.groupIds ++ [groupId]) } now).2
    (true, updateGroupStatistics s2 groupId)
  | _, _ => (false, s)

/-- `GroupService.getAvailableGroups`: the ordered overflow candidates —
empty when the group is unknown or `overflowEnabled` is off, otherwise the
configured `overflowGroupIds` mapped to groups and filtered to those that
exist and currently have at least one `AVAILABLE` agent. -/
def getAvailableGroups (s : SysState) (originalGroupId : Nat) : List Group :=
  match mapGet s.groups originalGroupId with
  | none => []
  | some originalGroup =>
    if !originalGroup.overflowEnabled then []
    else
      ((originalGroup.overflowGroupIds.map (mapGet s.groups)).reduceOption).filter
        (fun group => (AgentService.getAvailableAgentsByGroup s group.id).length > 0)

end GroupService

namespace CallService

/-- The call record after assignment: bound to the agent and `RINGING`
(the two field writes performed after a successful reservation in
`handleIncomingCall` / `tryOverflowRouting`). -/
def ringingCall (call : Call) (agentId : Nat) : Call :=
  { call with assignedAgentId := some agentId
              status := CallStatus.ringing }

/-- The call record after a successful gateway answer: `CONNECTED`. -/
def connectedCall (call : Call) : Call :=
  { call with status := CallStatus.connected }

/-- The call record stamped by `endCall`: `ENDED`, `endTime`, `duration`. -/
def endedCall (call : Call) (now : Nat) : Call :=
  { call with status := CallStatus.ended
              endTime := some now
              duration := some ((now : Int) - (call.startTime : Int)) }

/-- The call record after `transferCall`: reassigned and `TRANSFERRED`. -/
def transferredCall (call : Call) (toAgentId : Nat) : Call :=
  { call with assignedAgentId := some toAgentId
              status := CallStatus.transferred }

/-- `CallService.assignCallToAgent` (private): pick the first available
agent of the call's group and reserve it through
`AgentService.assignCallToAgent`; the returned agent is the pre-reservation
record (only its `id` is used by the callers). -/
def assignCallToAgent (s : SysState) (call : Call) (now : Nat) :
    Option Agent × SysState :=
  match AgentService.getAvailableAgentsByGroup s call.groupId with
  | [] => (none, s)
  | selectedAgent :: _ =>
    match AgentService.assignCallToAgent s selectedAgent.id call.id now with
    | (true, s1) => (some selectedAgent, s1)
    | (false, s1) => (none, s1)

/-- The loop body of `CallService.tryOverflowRouting`, iterating over the
candidate groups.  The `call` object is shared by reference with the
`calls` map in the source, so every field write is mirrored into the store
immediately; the explicit `this.calls.set` calls are then no-ops. -/
def overflowLoop (s : SysState) (call : Call) (now : Nat) :
    List Group → Bool × Call × SysState
  | [] => (false, call, s)
  | group :: rest =>
    if (AgentService.getAvailableAgentsByGroup s group.id).length > 0 then
      let call1 := { call with groupId := group.id }
      let s1 := { s with calls := mapSet s.calls call1.id call1 }
      match assignCallToAgent s1 call1 now with
      | (some agent, s2) =>
        let call2 := ringingCall call1 agent.id
        (true, call2, { s2 with calls := mapSet s2.calls call2.id call2 })
      | (none, s2) => overflowLoop s2 call1 now rest
    else overflowLoop s call now rest

/-- `CallService.tryOverflowRouting`: walk `getAvailableGroups` of the
call's current group in configured order; on the first group with an
available agent, move the call to that group and reserve the agent. -/
def tryOverflowRouting (s : SysState) (call : Call) (now : Nat) :
    Bool × Call × SysState :=
  overflowLoop s call now (GroupService.getAvailableGroups s call.groupId)

/-- The `Call` object created by `handleIncomingCall`: fresh id, caller
number, owning group, `INCOMING`, creation timestamp, and the ACS
correlation handles extracted from the webhook payload
(`extractCallConnectionInfo`; absent payload yields `{}`). -/
def newIncomingCall (s : SysState) (group : Group) (callerNumber : String)
    (acsEventData : Option AcsConnectionInfo) (now : Nat) : Call :=
  let acsConnectionInfo :=
    acsEventData.getD { callConnectionId := none, incomingCallContext := none }
  { id := s.nextId
    phoneNumber := callerNumber
    groupId := group.id
    status := CallStatus.incoming
    startTime := now
    acsCallConnectionId := acsConnectionInfo.callConnectionId
    acsIncomingCallContext := acsConnectionInfo.incomingCallContext }

/-- The tail of `handleIncomingCall` once the `INCOMING` call record has
been stored: attempt direct assignment in the call's group; on success
bind the call (`assignedAgentId`, `RINGING`) and store it; on failure run
overflow routing. -/
def assignOrOverflow (s1 : SysState) (call : Call) (now : Nat) :
    Option Call × SysState :=
  match assignCallToAgent s1 call now with
  | (some assignedAgent, s2) =>
    let call1 := ringingCall call assignedAgent.id
    (some call1, { s2 with calls := mapSet s2.calls call1.id call1 })
  | (none, s2) =>
    let (_, call1, s3) := tryOverflowRouting s2 call now
    (some call1, s3)

/-- `CallService.handleIncomingCall`: resolve the destination group by
phone number (no group → no call record at all), create the call in
`INCOMING`, then try direct assignment and fall back to overflow routing. -/
def handleIncomingCall (s : SysState) (phoneNumber : String)
    (callerNumber : String) (acsEventData : Option AcsConnectionInfo)
    (now : Nat) : Option Call × SysState :=
  match GroupService.getGroupByPhoneNumber s phoneNumber with
  | none => (none, s)
  | some group =>
    let call := newIncomingCall s group callerNumber acsEventData now
    let s1 := { s with calls := mapSet s.calls call.id call
                       nextId := s.nextId + 1 }
    assignOrOverflow s1 call now

/-- `CallService.answerCall`: rejected unless the call exists, is assigned
to this agent and is `RINGING`; the ACS gateway outcome
(`acsService.answerCall`) is the `acsAnswerSuccess` parameter; only on
gateway success does the status flip to `CONNECTED` (followed by a group
statistics refresh and notifications). -/
def answerCall (s : SysState) (callId : Nat) (agentId : Nat)
    (acsAnswerSuccess : Bool) : Bool × SysState :=
  match mapGet s.calls callId with
  | none => (false, s)
  | some call =>
    if call.assignedAgentId ≠ some agentId ∨ call.status ≠ CallStatus.ringing
    then (false, s)
    else if !acsAnswerSuccess then (false, s)
    else
      let call1 := connectedCall call
      let s1 := { s with calls := mapSet s.calls callId call1 }
      (true, GroupService.updateGroupStatistics s1 call1.groupId)

/-- `CallService.endCall`: reject when the call is unknown or `agentId` is
given and does not match the assignment; the ACS hangup outcome is the
`acsEndSuccess` parameter and aborts the operation on failure.  On success
stamp `ENDED` / `endTime` / `duration`, and when an agent is assigned and
the duration is truthy, zero the `waitTime` and release the agent with
`duration / 1000` seconds; finally refresh the group statistics. -/
def endCall (s : SysState) (callId : Nat) (agentId : Option Nat)
    (acsEndSuccess : Bool) (now : Nat) : Bool × SysState :=
  match mapGet s.calls callId with
  | none => (false, s)
  | some call =>
    if (match agentId with
        | some aid => decide (call.assignedAgentId ≠ some aid)
        | none => false) then (false, s)
    else if !acsEndSuccess then (false, s)
    else
      let assignedAgentId := call.assignedAgentId
      let duration : Int := (now : Int) - (call.startTime : Int)
      let call1 := endedCall call now
      let (call2, s1) :=
        match assignedAgentId with
        | some aid =>
          if numTruthy call1.duration then
            let call2 := { call1 with waitTime := some 0 }
            (call2,
              (AgentService.releaseAgentFromCall
                { s with calls := mapSet s.calls callId call2 }
                aid ((duration : ℚ) / 1000) now).2)
          else (call1, { s with calls := mapSet s.calls callId call1 })
        | none => (call1, { s with calls := mapSet s.calls callId call1 })
      let s2 := { s1 with calls := mapSet s1.calls callId call2 }
      (true, GroupService.updateGroupStatistics s2 call2.groupId)

/-- `CallService.transferCall`: requires the call to exist and be assigned
to `fromAgentId`, and the target agent to exist and be `AVAILABLE`; when
`call.duration` is truthy the origin agent is released with
`duration / 1000`, then the target is reserved and the call flipped to
`TRANSFERRED` (with notifications to both agents). -/
def transferCall (s : SysState) (callId : Nat) (fromAgentId : Nat)
    (toAgentId : Nat) (now : Nat) : Bool × SysState :=
  match mapGet s.calls callId, mapGet s.agents toAgentId with
  | some call, some toAgent =>
    if call.assignedAgentId ≠ some fromAgentId ∨
        toAgent.status ≠ AgentStatus.available then (false, s)
    else
      let s1 :=
        if numTruthy call.duration then
          (AgentService.releaseAgentFromCall s fromAgentId
            (((call.duration.getD 0 : Int) : ℚ) / 1000) now).2
        else s
      match AgentService.assignCallToAgent s1 toAgentId callId now with
      | (true, s2) =>
        let call1 := transferredCall call toAgentId
        (true, { s2 with calls := mapSet s2.calls callId call1 })
      | (false, s2) => (false, s2)
  | _, _ => (false, s)

/-- `CallService.getCall`. -/
def getCall (s : SysState) (callId : Nat) : Option Call :=
  mapGet s.calls callId

/-- `CallService.getActiveCalls`: every call whose status is not `ENDED`. -/
def getActiveCalls (s : SysState) : List Call :=
  (mapValues s.calls).filter (fun call => call.status ≠ CallStatus.ended)

end CallService

/-! ## Specification-side definitions and system-level relations -/

/-- Written from the specification's words for `overflowCandidates`
(refinement reference for `GroupService.getAvailableGroups`): the ordered
list of groups from `overflowGroupIds` filtered to those that both exist
and currently have at least one available agent, in the original
configured order; empty when the group is unknown or overflow is not
enabled. -/
def overflowCandidatesSpec (s : SysState) (groupId : Nat) : List Group :=
  match mapGet s.groups groupId with
  | none => []
  | some g =>
    if g.overflowEnabled then
      g.overflowGroupIds.filterMap (fun id =>
        match mapGet s.groups id with
        | none => none
        | some candidate =>
          if AgentService.getAvailableAgentsByGroup s candidate.id ≠ []
          then some candidate else none)
    else []

/-- A call that is live from the agent's point of view: `RINGING` or
`CONNECTED`. -/
def liveCall (c : Call) : Prop :=
  c.status = CallStatus.ringing ∨ c.status = CallStatus.connected

instance (c : Call) : Decidable (liveCall c) := by
  unfold liveCall; infer_instance

/-- The agent/call consistency property of claim C1: for every agent,
`status == IN_CALL` iff `currentCallId` is set, iff some call is assigned
to the agent and live; and no agent is bound to two live calls at once. -/
def agentCallConsistent (s : SysState) : Prop :=
  ∀ agent ∈ mapValues s.agents,
    (agent.status = AgentStatus.in_call ↔ agent.currentCallId.isSome) ∧
    (agent.status = AgentStatus.in_call ↔
      ∃ call ∈ mapValues s.calls,
        call.assignedAgentId = some agent.id ∧ liveCall call) ∧
    (∀ c1 ∈ mapValues s.calls, ∀ c2 ∈ mapValues s.calls,
      c1.assignedAgentId = some agent.id → c2.assignedAgentId = some agent.id →
      liveCall c1 → liveCall c2 → c1 = c2)

instance (s : SysState) : Decidable (agentCallConsistent s) := by
  unfold agentCallConsistent; infer_instance

/-- Well-formedness of the agent store as a keyed map: every entry's key
is its agent's id, and keys are distinct.  This holds by construction for
every state the services ever build (ids come from the fresh-id source)
and is needed to relate value-level listings (`getAvailableAgentsByGroup`)
back to keyed lookups (`getAgent`). -/
def agentsWF (s : SysState) : Prop :=
  (∀ p ∈ s.agents, p.1 = p.2.id) ∧ (s.agents.map Prod.fst).Nodup

instance (s : SysState) : Decidable (agentsWF s) := by
  unfold agentsWF; infer_instance

/-- One application of any of the public operations named by claim C1:
agent creation, reserve (`assignCallToAgent`, both the raw directory gate
and the routed `handleIncomingCall` path), `answerCall`, `endCall`,
`transferCall`, `updateAgentStatus` and release, plus the group
administration needed to wire agents to groups.  Gateway outcomes and
timestamps are arbitrary. -/
inductive StepFull : SysState → SysState → Prop
  | createAgent (s : SysState) (request : CreateAgentRequest) (now : Nat) :
      StepFull s (AgentService.createAgent s request now).2
  | createGroup (s : SysState) (request : CreateGroupRequest) :
      StepFull s (GroupService.createGroup s request).2
  | addAgentToGroup (s : SysState) (groupId agentId now : Nat) :
      StepFull s (GroupService.addAgentToGroup s groupId agentId now).2
  | updateAgentStatus (s : SysState) (id : Nat) (status : AgentStatus)
      (now : Nat) :
      StepFull s (AgentService.updateAgentStatus s id status now).2
  | reserve (s : SysState) (agentId callId now : Nat) :
      StepFull s (AgentService.assignCallToAgent s agentId callId now).2
  | release (s : SysState) (agentId : Nat) (callDuration : ℚ) (now : Nat) :
      StepFull s (AgentService.releaseAgentFromCall s agentId callDuration now).2
  | handleIncomingCall (s : SysState) (phoneNumber callerNumber : String)
      (acsEventData : Option AcsConnectionInfo) (now : Nat) :
      StepFull s
        (CallService.handleIncomingCall s phoneNumber callerNumber acsEventData now).2
  | answerCall (s : SysState) (callId agentId : Nat) (acsAnswerSuccess : Bool) :
      StepFull s (CallService.answerCall s callId agentId acsAnswerSuccess).2
  | endCall (s : SysState) (callId : Nat) (agentId : Option Nat)
      (acsEndSuccess : Bool) (now : Nat) :
      StepFull s (CallService.endCall s callId agentId acsEndSuccess now).2
  | transferCall (s : SysState) (callId fromAgentId toAgentId now : Nat) :
      StepFull s (CallService.transferCall s callId fromAgentId toAgentId now).2

/-- States reachable from the empty boot state by the public operations of
claim C1. -/
inductive ReachableFull : SysState → Prop
  | init : ReachableFull initialState
  | step {s s' : SysState} : ReachableFull s → StepFull s s' → ReachableFull s'

/-- Claim C1 exactly as stated: the consistency property holds in every
state reachable by any sequence of the public operations. -/
def claimC1 : Prop :=
  ∀ s : SysState, ReachableFull s → agentCallConsistent s

/-- The restricted operation set of the amended claim C1, as a step
relation on a state paired with the wall clock (epoch ms): agent/group
administration, console status changes that neither enter `IN_CALL` nor
touch an agent currently `IN_CALL` (entering/leaving a call is the
reservation/release path's job), plus the call lifecycle
`handleIncomingCall` / `answerCall` / `endCall`.  Each step happens at a
strictly later instant `now` (the wall clock advances by at least a
millisecond between operations), and `endCall` is only applied to calls
that are not already `ENDED` (re-ending an ended call is the separately
reported double-release defect of claim C2; an unrestricted
`updateAgentStatus`, a direct release, or any `transferCall` break the
consistency property, as the counterexample shows). -/
inductive StepCore : SysState × Nat → SysState × Nat → Prop
  | createAgent (s : SysState) (t : Nat) (request : CreateAgentRequest)
      (now : Nat) (ht : t < now) :
      StepCore (s, t) ((AgentService.createAgent s request now).2, now)
  | createGroup (s : SysState) (t : Nat) (request : CreateGroupRequest)
      (now : Nat) (ht : t < now) :
      StepCore (s, t) ((GroupService.createGroup s request).2, now)
  | addAgentToGroup (s : SysState) (t groupId agentId now : Nat)
      (ht : t < now) :
      StepCore (s, t) ((GroupService.addAgentToGroup s groupId agentId now).2, now)
  | updateAgentStatus (s : SysState) (t id : Nat) (status : AgentStatus)
      (now : Nat) (ht : t < now) (hstatus : status ≠ AgentStatus.in_call)
      (hagent : ∀ a, mapGet s.agents id = some a →
        a.status ≠ AgentStatus.in_call) :
      StepCore (s, t) ((AgentService.updateAgentStatus s id status now).2, now)
  | handleIncomingCall (s : SysState) (t : Nat)
      (phoneNumber callerNumber : String)
      (acsEventData : Option AcsConnectionInfo) (now : Nat) (ht : t < now) :
      StepCore (s, t)
        ((CallService.handleIncomingCall s phoneNumber callerNumber acsEventData now).2,
          now)
  | answerCall (s : SysState) (t callId agentId : Nat)
      (acsAnswerSuccess : Bool) (now : Nat) (ht : t < now) :
      StepCore (s, t) ((CallService.answerCall s callId agentId acsAnswerSuccess).2, now)
  | endCall (s : SysState) (t callId : Nat) (agentId : Option Nat)
      (acsEndSuccess : Bool) (now : Nat) (ht : t < now)
      (hnotEnded : ∀ c, mapGet s.calls callId = some c →
        c.status ≠ CallStatus.ended) :
      StepCore (s, t) ((CallService.endCall s callId agentId acsEndSuccess now).2, now)

/-- States (with their clock) reachable by the restricted operations of
the amended claim C1, starting from the empty boot state at instant 0. -/
inductive ReachableCore : SysState × Nat → Prop
  | init : ReachableCore (initialState, 0)
  | step {p q : SysState × Nat} : ReachableCore p → StepCore p q → ReachableCore q

/-- The inductive invariant carried through `StepCore`: well-formedness of
the three keyed stores (keys coincide with entity ids, keys are distinct,
ids are below the fresh-id counter), timestamps bounded by the clock, and
the agent/call binding consistency of claim C1 in keyed form. -/
structure Inv (s : SysState) (t : Nat) : Prop where
  agentKeys : ∀ p ∈ s.agents, p.1 = p.2.id
  callKeys : ∀ p ∈ s.calls, p.1 = p.2.id
  agentNodup : (s.agents.map Prod.fst).Nodup
  callNodup : (s.calls.map Prod.fst).Nodup
  agentFresh : ∀ p ∈ s.agents, p.1 < s.nextId
  callFresh : ∀ p ∈ s.calls, p.1 < s.nextId
  statusCur : ∀ i a, mapGet s.agents i = some a →
    (a.status = AgentStatus.in_call ↔ a.currentCallId.isSome)
  curLive : ∀ i a cid, mapGet s.agents i = some a →
    a.currentCallId = some cid →
    ∃ c, mapGet s.calls cid = some c ∧ c.assignedAgentId = some a.id ∧ liveCall c
  liveCur : ∀ i c, mapGet s.calls i = some c → liveCall c →
    ∀ aid, c.assignedAgentId = some aid →
    ∃ a, mapGet s.agents aid = some a ∧ a.currentCallId = some c.id
  assignedNotIncoming : ∀ i c, mapGet s.calls i = some c →
    c.assignedAgentId.isSome → c.status ≠ CallStatus.incoming
  noTransferred : ∀ i c, mapGet s.calls i = some c →
    c.status ≠ CallStatus.transferred
  callTime : ∀ i c, mapGet s.calls i = some c → c.startTime ≤ t

/-! ## Concrete scenario states

A small executable scenario used by the witnesses and counterexamples:
two agents (ids 0 and 1) in one group (id 2, phone number `"+100"`),
both made available, one inbound call (id 3) from `"+200"` routed to
agent 0, answered, and variously ended or transferred; plus an overflow
configuration with groups `A` (id 2), `B` (id 3), `C` (id 4). -/

def wAgentReq : CreateAgentRequest :=
  { name := "Alice", email := "alice@example.com", username := "alice"
    password := "pw", groupIds := [] }

def wAgentReq2 : CreateAgentRequest :=
  { name := "Bob", email := "bob@example.com", username := "bob"
    password := "pw", groupIds := [] }

def wGroupReq : CreateGroupRequest :=
  { name := "Support", location := "Madrid", phoneNumber := "+100" }

def w1 : SysState := (AgentService.createAgent initialState wAgentReq 0).2
def w2 : SysState := (AgentService.createAgent w1 wAgentReq2 0).2
def w3 : SysState := (GroupService.createGroup w2 wGroupReq).2
def w4 : SysState := (GroupService.addAgentToGroup w3 2 0 1).2
def w5 : SysState := (GroupService.addAgentToGroup w4 2 1 1).2
def w6 : SysState := (AgentService.updateAgentStatus w5 0 AgentStatus.available 2).2
def w7 : SysState := (AgentService.updateAgentStatus w6 1 AgentStatus.available 3).2
def w8 : SysState := (CallService.handleIncomingCall w7 "+100" "+200" none 5).2
def w9 : SysState := (CallService.answerCall w8 3 0 true).2

/-- The counterexample state for claim C1: agent 0 created and then moved
to `IN_CALL` through the public `updateAgentStatus`, with no call bound. -/
def cxC1 : SysState := (AgentService.updateAgentStatus w1 0 AgentStatus.in_call 3).2

/-- The same scenario as `w1`–`w9`, replayed with strictly increasing
timestamps so that it is a `StepCore` run: the reachability witness for
the amended claim C1. -/
def wc1 : SysState := (AgentService.createAgent initialState wAgentReq 1).2
def wc2 : SysState := (AgentService.createAgent wc1 wAgentReq2 2).2
def wc3 : SysState := (GroupService.createGroup wc2 wGroupReq).2
def wc4 : SysState := (GroupService.addAgentToGroup wc3 2 0 4).2
def wc5 : SysState := (GroupService.addAgentToGroup wc4 2 1 5).2
def wc6 : SysState := (AgentService.updateAgentStatus wc5 0 AgentStatus.available 6).2
def wc7 : SysState := (AgentService.updateAgentStatus wc6 1 AgentStatus.available 7).2
def wc8 : SysState := (CallService.handleIncomingCall wc7 "+100" "+200" none 8).2
def wc9 : SysState := (CallService.answerCall wc8 3 0 true).2
def wc10 : SysState := (CallService.endCall wc9 3 (some 0) true 10).2

/-- Overflow scenario: agent 0 and agent 1 (ids 0, 1); group `A` (id 2,
phone `"+1"`, overflow enabled towards `[3, 4]`), group `B` (id 3, no
agents), group `C` (id 4, agent 0 available); group `D` (id 5, phone
`"+7"`, overflow configured towards `[4]` but not enabled). -/
def oGroupA : CreateGroupRequest :=
  { name := "GA", location := "L", phoneNumber := "+1"
    overflowEnabled := some true, overflowGroupIds := some [3, 4] }

def oGroupB : CreateGroupRequest :=
  { name := "GB", location := "L", phoneNumber := "+2" }

def oGroupC : CreateGroupRequest :=
  { name := "GC", location := "L", phoneNumber := "+3" }

def oGroupD : CreateGroupRequest :=
  { name := "GD", location := "L", phoneNumber := "+7"
    overflowGroupIds := some [4] }

def o1 : SysState := (AgentService.createAgent initialState wAgentReq 0).2
def o2 : SysState := (AgentService.createAgent o1 wAgentReq2 0).2
def o3 : SysState := (GroupService.createGroup o2 oGroupA).2
def o4 : SysState := (GroupService.createGroup o3 oGroupB).2
def o5 : SysState := (GroupService.createGroup o4 oGroupC).2
def o6 : SysState := (GroupService.addAgentToGroup o5 4 0 1).2
def o7 : SysState := (AgentService.updateAgentStatus o6 0 AgentStatus.available 2).2
def o8 : SysState := (GroupService.createGroup o7 oGroupD).2

/-- An incoming call destined for overflow group `A` (id 2). -/
def cOverflowA : Call :=
  { id := 6, phoneNumber := "+999", groupId := 2
    status := CallStatus.incoming, startTime := 5 }

/-- An incoming call destined for the overflow-disabled group `D` (id 5). -/
def cOverflowD : Call :=
  { id := 7, phoneNumber := "+999", groupId := 5
    status := CallStatus.incoming, startTime := 5 }

/-! ## Theorems

Basic lemmas about the association-list map, then the per-claim results. -/

theorem mapGet_set_self {α : Type} (m : List (Nat × α)) (k : Nat) (v : α) :
    mapGet (mapSet m k v) k = some v := by
  induction m with
  | nil => simp [mapSet, mapGet]
  | cons p m ih =>
    by_cases h : p.1 = k
    · simp [mapSet, h, mapGet]
    · simp [mapSet, h, mapGet, ih]

theorem mapGet_set_ne {α : Type} (m : List (Nat × α)) {k k' : Nat} (v : α)
    (h : k' ≠ k) : mapGet (mapSet m k v) k' = mapGet m k' := by
  induction m with
  | nil => simp [mapSet, mapGet, Ne.symm h]
  | cons p m ih =>
    by_cases hp : p.1 = k
    · simp [mapSet, hp, mapGet, Ne.symm h]
    · simp [mapSet, hp, mapGet, ih]

theorem mapGet_set_cases {α : Type} (m : List (Nat × α)) (k k' : Nat) (v : α) :
    mapGet (mapSet m k v) k' = if k' = k then some v else mapGet m k' := by
  by_cases h : k' = k
  · subst h; simp [mapGet_set_self]
  · simp [h, mapGet_set_ne m v h]

theorem mem_of_mapGet {α : Type} {m : List (Nat × α)} {k : Nat} {v : α}
    (h : mapGet m k = some v) : (k, v) ∈ m := by
  induction m with
  | nil => simp [mapGet] at h
  | cons p m ih =>
    by_cases hp : p.1 = k
    · simp only [mapGet, hp, if_pos] at h
      cases h
      subst hp
      exact List.mem_cons_self _ _
    · simp only [mapGet, hp, if_false, ite_false] at h
      exact List.mem_cons_of_mem _ (ih h)

theorem values_mem_of_mapGet {α : Type} {m : List (Nat × α)} {k : Nat} {v : α}
    (h : mapGet m k = some v) : v ∈ mapValues m :=
  List.mem_map.2 ⟨(k, v), mem_of_mapGet h, rfl⟩

theorem mapGet_eq_some_of_mem {α : Type} {m : List (Nat × α)} {k : Nat} {v : α}
    (hnd : (m.map Prod.fst).Nodup) (hmem : (k, v) ∈ m) : mapGet m k = some v := by
  induction m with
  | nil => simp at hmem
  | cons p m ih =>
    rcases List.mem_cons.1 hmem with h | h
    · cases h; simp [mapGet]
    · have hk : k ∈ m.map Prod.fst := List.mem_map.2 ⟨(k, v), h, rfl⟩
      have hp : p.1 ≠ k := by
        intro hpk
        exact (List.nodup_cons.1 hnd).1 (hpk ▸ hk)
      simp only [mapGet, hp, if_false, ite_false]
      exact ih (List.nodup_cons.1 hnd).2 h

theorem mapGet_of_mem_values {α : Type} {m : List (Nat × α)} (key : α → Nat)
    (hk : ∀ p ∈ m, p.1 = key p.2) (hnd : (m.map Prod.fst).Nodup)
    {v : α} (hv : v ∈ mapValues m) : mapGet m (key v) = some v := by
  rcases List.mem_map.1 hv with ⟨p, hp, hpv⟩
  have : p = (key v, v) := by
    cases p
    cases hpv
    exact Prod.ext (hk _ hp) rfl
  exact mapGet_eq_some_of_mem hnd (this ▸ hp)

theorem key_of_mapGet {α : Type} {m : List (Nat × α)} {k : Nat} {v : α}
    (key : α → Nat) (hk : ∀ p ∈ m, p.1 = key p.2)
    (h : mapGet m k = some v) : key v = k :=
  (hk _ (mem_of_mapGet h)).symm

theorem mem_mapSet {α : Type} {m : List (Nat × α)} {k : Nat} {v : α} {p : Nat × α}
    (h : p ∈ mapSet m k v) : p = (k, v) ∨ p ∈ m := by
  induction m with
  | nil => simpa [mapSet] using h
  | cons q m ih =>
    by_cases hq : q.1 = k
    · simp only [mapSet, hq, if_pos] at h
      rcases List.mem_cons.1 h with h | h
      · exact Or.inl h
      · exact Or.inr (List.mem_cons_of_mem _ h)
    · simp only [mapSet, hq, if_false, ite_false] at h
      rcases List.mem_cons.1 h with h | h
      · exact Or.inr (h ▸ List.mem_cons_self _ _)
      · rcases ih h with h | h
        · exact Or.inl h
        · exact Or.inr (List.mem_cons_of_mem _ h)

theorem keys_mapSet {α : Type} (m : List (Nat × α)) (k : Nat) (v : α) :
    (mapSet m k v).map Prod.fst =
      if k ∈ m.map Prod.fst then m.map Prod.fst else m.map Prod.fst ++ [k] := by
  induction m with
  | nil => simp [mapSet]
  | cons p m ih =>
    by_cases hp : p.1 = k
    · simp [mapSet, hp]
    · have hne : k ≠ p.1 := fun hh => hp hh.symm
      by_cases hm : k ∈ m.map Prod.fst
      · simp [mapSet, hp, ih, hm, hne]
      · simp [mapSet, hp, ih, hm, hne]

theorem nodup_keys_mapSet {α : Type} {m : List (Nat × α)} {k : Nat} {v : α}
    (hnd : (m.map Prod.fst).Nodup) : ((mapSet m k v).map Prod.fst).Nodup := by
  rw [keys_mapSet]
  by_cases hm : k ∈ m.map Prod.fst
  · simpa [hm] using hnd
  · simp [hm, List.nodup_append, hnd]

theorem mapGet_none_of_lt {α : Type} {m : List (Nat × α)} {n : Nat}
    (h : ∀ p ∈ m, p.1 < n) : mapGet m n = none := by
  induction m with
  | nil => rfl
  | cons p m ih =>
    have hp : p.1 ≠ n := Nat.ne_of_lt (h p (List.mem_cons_self _ _))
    simp only [mapGet, hp, if_false, ite_false]
    exact ih fun q hq => h q (List.mem_cons_of_mem _ hq)

theorem not_mem_keys_of_lt {α : Type} {m : List (Nat × α)} {n : Nat}
    (h : ∀ p ∈ m, p.1 < n) : n ∉ m.map Prod.fst := by
  intro hmem
  rcases List.mem_map.1 hmem with ⟨p, hp, hpn⟩
  exact absurd (hpn ▸ h p hp) (lt_irrefl n)

/-! ### Unfolding lemmas for the directory operations -/

theorem updateAgent_eq {s : SysState} {id : Nat} {a : Agent}
    (u : UpdateAgentRequest) (now : Nat) (h : mapGet s.agents id = some a) :
    AgentService.updateAgent s id u now =
      (some (AgentService.applyUpdate a u now),
        { s with agents := mapSet s.agents id (AgentService.applyUpdate a u now) }) := by
  simp [AgentService.updateAgent, h]

theorem assignCallToAgent_success {s : SysState} {agentId : Nat} {a : Agent}
    (callId now : Nat) (h : mapGet s.agents agentId = some a)
    (hst : a.status = AgentStatus.available) :
    AgentService.assignCallToAgent s agentId callId now =
      (true, { s with agents := mapSet s.agents agentId (AgentService.reservedAgent a callId now) }) := by
  simp only [AgentService.assignCallToAgent, h, hst]
  rw [updateAgent_eq _ now h]
  simp [AgentService.applyUpdate, AgentService.reservedAgent]

theorem assignCallToAgent_missing {s : SysState} {agentId : Nat}
    (callId now : Nat) (h : mapGet s.agents agentId = none) :
    AgentService.assignCallToAgent s agentId callId now = (false, s) := by
  simp [AgentService.assignCallToAgent, h]

theorem assignCallToAgent_busy {s : SysState} {agentId : Nat} {a : Agent}
    (callId now : Nat) (h : mapGet s.agents agentId = some a)
    (hst : a.status ≠ AgentStatus.available) :
    AgentService.assignCallToAgent s agentId callId now = (false, s) := by
  simp [AgentService.assignCallToAgent, h, hst]

theorem releaseAgentFromCall_eq {s : SysState} {agentId : Nat} {a : Agent}
    (d : ℚ) (now : Nat) (h : mapGet s.agents agentId = some a) :
    AgentService.releaseAgentFromCall s agentId d now =
      (true, { s with agents := mapSet s.agents agentId (AgentService.releasedAgent a d now) }) := by
  simp only [AgentService.releaseAgentFromCall, h]
  rw [updateAgent_eq _ now h]
  simp [AgentService.applyUpdate, AgentService.releasedAgent]

theorem releaseAgentFromCall_missing {s : SysState} {agentId : Nat}
    (d : ℚ) (now : Nat) (h : mapGet s.agents agentId = none) :
    AgentService.releaseAgentFromCall s agentId d now = (false, s) := by
  simp [AgentService.releaseAgentFromCall, h]

/-! ### Claim C5 — the reservation gate -/

/-- C5: `AgentService.assignCallToAgent` (reserveForCall) succeeds iff the
agent exists and is currently `AVAILABLE`; on success the agent's status
becomes `IN_CALL` and `currentCallId` becomes the call id in the same
atomic state update; on failure it returns `false` and the whole system
state is unchanged. -/
theorem C5_reserve_gate (s : SysState) (agentId callId now : Nat) :
    ((AgentService.assignCallToAgent s agentId callId now).1 = true ↔
      ∃ a, AgentService.getAgent s agentId = some a ∧
        a.status = AgentStatus.available)
    ∧ ((AgentService.assignCallToAgent s agentId callId now).1 = true →
        ∃ a', mapGet (AgentService.assignCallToAgent s agentId callId now).2.agents
            agentId = some a' ∧
          a'.status = AgentStatus.in_call ∧ a'.currentCallId = some callId)
    ∧ ((AgentService.assignCallToAgent s agentId callId now).1 = false →
        (AgentService.assignCallToAgent s agentId callId now).2 = s) := by
  match hget : mapGet s.agents agentId with
  | none =>
    refine ⟨?_, ?_, ?_⟩
    · rw [assignCallToAgent_missing callId now hget]
      simp [AgentService.getAgent, hget]
    · rw [assignCallToAgent_missing callId now hget]
      simp
    · rw [assignCallToAgent_missing callId now hget]
      simp
  | some a =>
    by_cases hst : a.status = AgentStatus.available
    · rw [assignCallToAgent_success callId now hget hst]
      refine ⟨?_, ?_, ?_⟩
      · simp only [true_iff]
        exact ⟨a, hget, hst⟩
      · intro _
        exact ⟨_, mapGet_set_self _ _ _, rfl, rfl⟩
      · simp
    · rw [assignCallToAgent_busy callId now hget hst]
      refine ⟨?_, ?_, ?_⟩
      · simp only [Bool.false_eq_true, false_iff]
        rintro ⟨a', ha', hav⟩
        rw [AgentService.getAgent, hget] at ha'
        cases ha'
        exact hst hav
      · simp
      · simp

/-- Witness for C5 at a concrete input: in state `w7` agent 0 is
available, so reserving it for call 99 succeeds and binds it. -/
theorem C5_reserve_gate_witness :
    ((AgentService.assignCallToAgent w7 0 99 4).1 = true ↔
      ∃ a, AgentService.getAgent w7 0 = some a ∧
        a.status = AgentStatus.available)
    ∧ ((AgentService.assignCallToAgent w7 0 99 4).1 = true →
        ∃ a', mapGet (AgentService.assignCallToAgent w7 0 99 4).2.agents 0 = some a' ∧
          a'.status = AgentStatus.in_call ∧ a'.currentCallId = some 99)
    ∧ ((AgentService.assignCallToAgent w7 0 99 4).1 = false →
        (AgentService.assignCallToAgent w7 0 99 4).2 = w7) :=
  C5_reserve_gate w7 0 99 4

/-! ### Claim C7 — unmapped destination number -/

/-- C7: when no group is mapped to the destination phone number,
`handleIncomingCall` returns `none` and the state — in particular the call
store — is unchanged: no `Call` object is created. -/
theorem C7_unmapped_number (s : SysState) (phoneNumber callerNumber : String)
    (acsEventData : Option AcsConnectionInfo) (now : Nat)
    (h : GroupService.getGroupByPhoneNumber s phoneNumber = none) :
    CallService.handleIncomingCall s phoneNumber callerNumber acsEventData now
      = (none, s) := by
  simp [CallService.handleIncomingCall, h]

/-- Witness for C7: the number `"+404"` is unmapped in scenario state
`w7`, and the call is rejected without touching the state. -/
theorem C7_unmapped_number_witness :
    GroupService.getGroupByPhoneNumber w7 "+404" = none ∧
    CallService.handleIncomingCall w7 "+404" "+200" none 9 = (none, w7) :=
  ⟨by decide, C7_unmapped_number w7 "+404" "+200" none 9 (by decide)⟩

/-! ### Claim C4 — release on an agent that is not IN_CALL -/

/-- C4 counterexample: in state `w1` agent 0 exists and is `OFFLINE` (not
`IN_CALL`), yet `releaseAgentFromCall` is not a no-op: it reports success
and changes the agent's status to `AVAILABLE` and its `totalCalls`
statistic from 0 to 1. -/
theorem C4_release_not_noop_cex :
    (mapGet w1.agents 0).map Agent.status = some AgentStatus.offline
    ∧ (mapGet w1.agents 0).map (fun a => a.statistics.totalCalls) = some 0
    ∧ (AgentService.releaseAgentFromCall w1 0 5 7).1 = true
    ∧ (mapGet (AgentService.releaseAgentFromCall w1 0 5 7).2.agents 0).map
        Agent.status = some AgentStatus.available
    ∧ (mapGet (AgentService.releaseAgentFromCall w1 0 5 7).2.agents 0).map
        (fun a => a.statistics.totalCalls) = some 1 := by
  decide

/-- C4 amended: for every existing agent — whatever its status, in
particular when it is not `IN_CALL` — `releaseAgentFromCall` reports
success, but it is not a no-op: it unconditionally sets the agent to
`AVAILABLE`, clears `currentCallId`, and folds the duration into the
statistics exactly as a normal release does. -/
theorem C4_release_always_mutates (s : SysState) (agentId : Nat)
    (d : ℚ) (now : Nat) (a : Agent) (h : mapGet s.agents agentId = some a)
    (hnotInCall : a.status ≠ AgentStatus.in_call) :
    (AgentService.releaseAgentFromCall s agentId d now).1 = true
    ∧ mapGet (AgentService.releaseAgentFromCall s agentId d now).2.agents agentId
        = some (AgentService.releasedAgent a d now) := by
  rw [releaseAgentFromCall_eq d now h]
  exact ⟨rfl, mapGet_set_self _ _ _⟩

/-- Witness for C4 amended, applying it to the offline agent 0 of `w1`. -/
theorem C4_release_always_mutates_witness :
    (mapGet w1.agents 0).isSome = true
    ∧ (AgentService.releaseAgentFromCall w1 0 5 7).1 = true := by
  have h : mapGet w1.agents 0 =
      some (AgentService.createAgent initialState wAgentReq 0).1 := by decide
  refine ⟨by decide, ?_⟩
  exact (C4_release_always_mutates w1 0 5 7 _ h (by decide)).1

/-! ### More unfolding lemmas -/

theorem mapSet_set {α : Type} (m : List (Nat × α)) (k : Nat) (v w : α) :
    mapSet (mapSet m k v) k w = mapSet m k w := by
  induction m with
  | nil => simp [mapSet]
  | cons p m ih =>
    by_cases hp : p.1 = k
    · simp [mapSet, hp]
    · simp [mapSet, hp, ih]

theorem updateGroupStatistics_parts (s : SysState) (groupId : Nat) :
    (GroupService.updateGroupStatistics s groupId).agents = s.agents ∧
    (GroupService.updateGroupStatistics s groupId).calls = s.calls ∧
    (GroupService.updateGroupStatistics s groupId).nextId = s.nextId := by
  unfold GroupService.updateGroupStatistics
  cases mapGet s.groups groupId <;> simp

/-! ### Claim C8 — answerCall and the gateway outcome -/

/-- C8: `answerCall` succeeds only when the call exists, is assigned to
the answering agent, is `RINGING` and the gateway reported success, and
then flips the call to `CONNECTED`; those guard conditions together with
gateway success are also sufficient; and on gateway failure the operation
fails with the whole state unchanged (the call stays `RINGING`). -/
theorem C8_answerCall_gateway (s : SysState) (callId agentId : Nat)
    (acsAnswerSuccess : Bool) :
    ((CallService.answerCall s callId agentId acsAnswerSuccess).1 = true →
      ∃ call, mapGet s.calls callId = some call ∧
        call.assignedAgentId = some agentId ∧
        call.status = CallStatus.ringing ∧
        acsAnswerSuccess = true ∧
        mapGet (CallService.answerCall s callId agentId acsAnswerSuccess).2.calls
            callId = some (CallService.connectedCall call))
    ∧ (acsAnswerSuccess = false →
        CallService.answerCall s callId agentId acsAnswerSuccess = (false, s))
    ∧ (∀ call, mapGet s.calls callId = some call →
        call.assignedAgentId = some agentId → call.status = CallStatus.ringing →
        acsAnswerSuccess = true →
        (CallService.answerCall s callId agentId acsAnswerSuccess).1 = true) := by
  rcases hc : mapGet s.calls callId with _ | call
  · refine ⟨?_, ?_, ?_⟩
    · simp [CallService.answerCall, hc]
    · intro hgw
      simp [CallService.answerCall, hc]
    · intro call hcall
      simp at hcall
  · by_cases hguard :
        call.assignedAgentId ≠ some agentId ∨ call.status ≠ CallStatus.ringing
    · refine ⟨?_, ?_, ?_⟩
      · simp [CallService.answerCall, hc, hguard]
      · intro hgw
        simp [CallService.answerCall, hc, hguard]
      · intro call' hcall' hassigned hringing hgw
        have hcc := Option.some.inj hcall'
        subst hcc
        rcases hguard with h | h
        · exact absurd hassigned h
        · exact absurd hringing h
    · push_neg at hguard
      cases acsAnswerSuccess with
      | false =>
        refine ⟨?_, ?_, ?_⟩
        · simp [CallService.answerCall, hc, hguard.1, hguard.2]
        · intro _
          simp [CallService.answerCall, hc, hguard.1, hguard.2]
        · intro call' hcall' hassigned hringing hgw
          cases hgw
      | true =>
        have hrun : CallService.answerCall s callId agentId true =
            (true, GroupService.updateGroupStatistics
              { s with calls := mapSet s.calls callId (CallService.connectedCall call) }
              (CallService.connectedCall call).groupId) := by
          simp [CallService.answerCall, hc, hguard.1, hguard.2]
        refine ⟨?_, ?_, ?_⟩
        · intro _
          refine ⟨call, rfl, hguard.1, hguard.2, rfl, ?_⟩
          rw [hrun]
          rw [(updateGroupStatistics_parts _ _).2.1]
          exact mapGet_set_self _ _ _
        · intro hgw
          cases hgw
        · intro call' hcall' hassigned hringing hgw
          rw [hrun]

/-- Witness for C8, applying it to the assigned ringing call 3 of `w8`
with a successful gateway answer. -/
theorem C8_answerCall_gateway_witness :
    ((CallService.answerCall w8 3 0 true).1 = true →
      ∃ call, mapGet w8.calls 3 = some call ∧
        call.assignedAgentId = some 0 ∧
        call.status = CallStatus.ringing ∧
        (true : Bool) = true ∧
        mapGet (CallService.answerCall w8 3 0 true).2.calls 3
          = some (CallService.connectedCall call))
    ∧ ((true : Bool) = false →
        CallService.answerCall w8 3 0 true = (false, w8))
    ∧ (∀ call, mapGet w8.calls 3 = some call →
        call.assignedAgentId = some 0 → call.status = CallStatus.ringing →
        (true : Bool) = true →
        (CallService.answerCall w8 3 0 true).1 = true) :=
  C8_answerCall_gateway w8 3 0 true

/-! ### Claim C9 — addAgentToGroup is idempotent -/

theorem getAgentsByGroup_eq_of_agents {s s' : SysState}
    (h : s'.agents = s.agents) (groupId : Nat) :
    AgentService.getAgentsByGroup s' groupId =
      AgentService.getAgentsByGroup s groupId := by
  simp [AgentService.getAgentsByGroup, mapValues, h]

theorem recomputedStatistics_eq_of_agents {s s' : SysState}
    (h : s'.agents = s.agents) (groupId : Nat) (st : GroupStatistics) :
    GroupService.recomputedStatistics s' groupId st =
      GroupService.recomputedStatistics s groupId st := by
  simp [GroupService.recomputedStatistics, getAgentsByGroup_eq_of_agents h]

theorem recomputedStatistics_idem (s : SysState) (groupId : Nat)
    (st : GroupStatistics) :
    GroupService.recomputedStatistics s groupId
        (GroupService.recomputedStatistics s groupId st)
      = GroupService.recomputedStatistics s groupId st := rfl

theorem updateGroupStatistics_eq {s : SysState} {groupId : Nat} {g : Group}
    (h : mapGet s.groups groupId = some g) :
    GroupService.updateGroupStatistics s groupId =
      { s with groups := mapSet s.groups groupId (GroupService.recomputedGroup s groupId g) } := by
  simp [GroupService.updateGroupStatistics, h]

theorem updateGroupStatistics_missing {s : SysState} {groupId : Nat}
    (h : mapGet s.groups groupId = none) :
    GroupService.updateGroupStatistics s groupId = s := by
  simp [GroupService.updateGroupStatistics, h]

theorem updateGroupStatistics_fix (s : SysState) (groupId : Nat) :
    GroupService.updateGroupStatistics
        (GroupService.updateGroupStatistics s groupId) groupId
      = GroupService.updateGroupStatistics s groupId := by
  rcases hg : mapGet s.groups groupId with _ | g
  · rw [updateGroupStatistics_missing hg, updateGroupStatistics_missing hg]
  · have h1 := updateGroupStatistics_eq hg
    have hagents : (GroupService.updateGroupStatistics s groupId).agents = s.agents :=
      (updateGroupStatistics_parts s groupId).1
    have hg1 : mapGet (GroupService.updateGroupStatistics s groupId).groups groupId
        = some (GroupService.recomputedGroup s groupId g) := by
      rw [h1]
      exact mapGet_set_self _ _ _
    have hrc : GroupService.recomputedGroup
          (GroupService.updateGroupStatistics s groupId) groupId
          (GroupService.recomputedGroup s groupId g)
        = GroupService.recomputedGroup s groupId g := by
      simp only [GroupService.recomputedGroup,
        recomputedStatistics_eq_of_agents hagents]
      exact congrArg _ (recomputedStatistics_idem s groupId g.statistics)
    rw [updateGroupStatistics_eq hg1, hrc]
    conv_lhs => rw [h1]
    simp only [mapSet_set]
    exact h1.symm

theorem addAgentToGroup_spec {s : SysState} {groupId agentId : Nat}
    {g : Group} {a : Agent} (hg : mapGet s.groups groupId = some g)
    (ha : mapGet s.agents agentId = some a) (now : Nat) :
    ∃ s2 : SysState,
      GroupService.addAgentToGroup s groupId agentId now =
        (true, GroupService.updateGroupStatistics s2 groupId) ∧
      (∃ g', mapGet s2.groups groupId = some g' ∧ agentId ∈ g'.agentIds) ∧
      (∃ a', mapGet s2.agents agentId = some a' ∧ groupId ∈ a'.groupIds) := by
  by_cases hga : agentId ∈ g.agentIds <;> by_cases hag : groupId ∈ a.groupIds
  · exact ⟨s, by simp [GroupService.addAgentToGroup, hg, ha, hga, hag],
      ⟨g, hg, hga⟩, ⟨a, ha, hag⟩⟩
  · refine ⟨(AgentService.updateAgent s agentId
        { groupIds := some (a.groupIds ++ [groupId]) } now).2,
      by simp [GroupService.addAgentToGroup, hg, ha, hga, hag], ?_, ?_⟩
    · rw [updateAgent_eq _ now ha]
      exact ⟨g, hg, hga⟩
    · rw [updateAgent_eq _ now ha]
      refine ⟨_, mapGet_set_self _ _ _, ?_⟩
      simp [AgentService.applyUpdate]
  · refine ⟨{ s with groups := mapSet s.groups groupId (GroupService.withAgentAdded g agentId) },
      by simp [GroupService.addAgentToGroup, hg, ha, hga, hag], ?_, ?_⟩
    · refine ⟨_, mapGet_set_self _ _ _, ?_⟩
      simp [GroupService.withAgentAdded]
    · exact ⟨a, ha, hag⟩
  · refine ⟨(AgentService.updateAgent
        { s with groups := mapSet s.groups groupId (GroupService.withAgentAdded g agentId) }
        agentId { groupIds := some (a.groupIds ++ [groupId]) } now).2,
      by simp [GroupService.addAgentToGroup, hg, ha, hga, hag], ?_, ?_⟩
    · rw [updateAgent_eq _ now (by exact ha)]
      refine ⟨_, mapGet_set_self _ _ _, ?_⟩
      simp [GroupService.withAgentAdded]
    · rw [updateAgent_eq _ now (by exact ha)]
      refine ⟨_, mapGet_set_self _ _ _, ?_⟩
      simp [AgentService.applyUpdate]

/-- C9: `addAgentToGroup` is idempotent — when the group and agent both
exist, a second call with the same pair returns `true` and leaves the
entire state (in particular `group.agentIds` and `agent.groupIds`) exactly
as after the first call, so neither membership list ever accumulates a
duplicate. -/
theorem C9_addAgentToGroup_idempotent (s : SysState)
    (groupId agentId now1 now2 : Nat) (g : Group) (a : Agent)
    (hg : mapGet s.groups groupId = some g)
    (ha : mapGet s.agents agentId = some a) :
    (GroupService.addAgentToGroup s groupId agentId now1).1 = true ∧
    GroupService.addAgentToGroup
        (GroupService.addAgentToGroup s groupId agentId now1).2 groupId agentId now2
      = (true, (GroupService.addAgentToGroup s groupId agentId now1).2) := by
  obtain ⟨s2, hrun, ⟨g', hg', hmemg⟩, ⟨a', ha', hmema⟩⟩ :=
    addAgentToGroup_spec hg ha now1
  rw [hrun]
  refine ⟨rfl, ?_⟩
  have hgF : mapGet (GroupService.updateGroupStatistics s2 groupId).groups groupId
      = some (GroupService.recomputedGroup s2 groupId g') := by
    rw [updateGroupStatistics_eq hg']
    exact mapGet_set_self _ _ _
  have haF : mapGet (GroupService.updateGroupStatistics s2 groupId).agents agentId
      = some a' := by
    rw [(updateGroupStatistics_parts s2 groupId).1]
    exact ha'
  have hmemgF : agentId ∈ (GroupService.recomputedGroup s2 groupId g').agentIds := by
    simpa [GroupService.recomputedGroup] using hmemg
  simp only [GroupService.addAgentToGroup, hgF, haF, hmemgF, if_pos, hmema]
  rw [updateGroupStatistics_fix]

/-- Witness for C9, applying it to group 2 and agent 1 of scenario state
`w4` (agent 1 not yet a member before the first call). -/
theorem C9_addAgentToGroup_idempotent_witness :
    (GroupService.addAgentToGroup w4 2 1 1).1 = true ∧
    GroupService.addAgentToGroup (GroupService.addAgentToGroup w4 2 1 1).2 2 1 9
      = (true, (GroupService.addAgentToGroup w4 2 1 1).2) := by
  have hg : mapGet w4.groups 2 = some ((mapGet w4.groups 2).getD default) := by decide
  have ha : mapGet w4.agents 1 = some ((mapGet w4.agents 1).getD default) := by decide
  exact C9_addAgentToGroup_idempotent w4 2 1 1 9 _ _ hg ha

/-! ### Claim C10 — transferCall does not require a live call -/

/-- C10: `transferCall` never checks the call's status: for a call that is
already `ENDED` but still carries `assignedAgentId = fromAgentId` (endCall
never clears the assignment), with an `AVAILABLE` target agent, the
transfer returns `true`, flips the finished call to `TRANSFERRED`,
reassigns it to the target, and the target becomes `IN_CALL` bound to the
finished call. -/
theorem C10_transfer_ended_call (s : SysState)
    (callId fromAgentId toAgentId now : Nat) (call : Call) (toAgent : Agent)
    (hc : mapGet s.calls callId = some call)
    (hended : call.status = CallStatus.ended)
    (hassigned : call.assignedAgentId = some fromAgentId)
    (hta : mapGet s.agents toAgentId = some toAgent)
    (hav : toAgent.status = AgentStatus.available) :
    (CallService.transferCall s callId fromAgentId toAgentId now).1 = true
    ∧ mapGet (CallService.transferCall s callId fromAgentId toAgentId now).2.calls
        callId = some (CallService.transferredCall call toAgentId)
    ∧ ∃ a', mapGet (CallService.transferCall s callId fromAgentId toAgentId now).2.agents
          toAgentId = some a' ∧
        a'.status = AgentStatus.in_call ∧ a'.currentCallId = some callId := by
  have hguard : ¬(call.assignedAgentId ≠ some fromAgentId ∨
      toAgent.status ≠ AgentStatus.available) := by
    push_neg
    exact ⟨hassigned, hav⟩
  -- the optional release of the origin agent preserves the target agent's
  -- availability and leaves the call store untouched
  have hs1 : ∃ x, mapGet (if numTruthy call.duration then
        (AgentService.releaseAgentFromCall s fromAgentId
          (((call.duration.getD 0 : Int) : ℚ) / 1000) now).2
      else s).agents toAgentId = some x ∧ x.status = AgentStatus.available ∧
      (if numTruthy call.duration then
        (AgentService.releaseAgentFromCall s fromAgentId
          (((call.duration.getD 0 : Int) : ℚ) / 1000) now).2
      else s).calls = s.calls := by
    by_cases hd : numTruthy call.duration
    · rcases hf : mapGet s.agents fromAgentId with _ | fa
      · rw [if_pos hd, releaseAgentFromCall_missing _ now hf]
        exact ⟨toAgent, hta, hav, rfl⟩
      · rw [if_pos hd, releaseAgentFromCall_eq _ now hf]
        by_cases heq : toAgentId = fromAgentId
        · subst heq
          refine ⟨AgentService.releasedAgent fa
              (((call.duration.getD 0 : Int) : ℚ) / 1000) now, ?_, rfl, rfl⟩
          exact mapGet_set_self _ _ _
        · refine ⟨toAgent, ?_, hav, rfl⟩
          rw [mapGet_set_ne _ _ heq]
          exact hta
    · rw [if_neg hd]
      exact ⟨toAgent, hta, hav, rfl⟩
  obtain ⟨x, hx, hxav, hcalls⟩ := hs1
  -- run the operation
  simp only [CallService.transferCall, hc, hta, hguard, if_neg]
  rw [assignCallToAgent_success callId now hx hxav]
  refine ⟨rfl, ?_, ?_⟩
  · exact mapGet_set_self _ _ _
  · exact ⟨_, mapGet_set_self _ _ _, rfl, rfl⟩

/-- Witness for C10: call 3 of the scenario was ended (by
`endCall w9 3 (some 0) true 10`) without clearing its assignment to
agent 0; transferring it to the available agent 1 succeeds and binds
agent 1 to the finished call. -/
theorem C10_transfer_ended_call_witness :
    ((CallService.endCall w9 3 (some 0) true 10).1 = true
      ∧ (mapGet (CallService.endCall w9 3 (some 0) true 10).2.calls 3).map
          Call.status = some CallStatus.ended
      ∧ (mapGet (CallService.endCall w9 3 (some 0) true 10).2.calls 3).map
          Call.assignedAgentId = some (some 0))
    ∧ (CallService.transferCall (CallService.endCall w9 3 (some 0) true 10).2
        3 0 1 30).1 = true := by
  refine ⟨by decide, ?_⟩
  have hc : mapGet (CallService.endCall w9 3 (some 0) true 10).2.calls 3 =
      some ((mapGet (CallService.endCall w9 3 (some 0) true 10).2.calls 3).getD
        default) := by decide
  have hta : mapGet (CallService.endCall w9 3 (some 0) true 10).2.agents 1 =
      some ((mapGet (CallService.endCall w9 3 (some 0) true 10).2.agents 1).getD
        default) := by decide
  exact (C10_transfer_ended_call _ 3 0 1 30 _ _ hc (by decide) (by decide)
    hta (by decide)).1

/-! ### Claim C2 — endCall is not idempotent (code bug) -/

/-- C2: evaluation of the double-`endCall` defect at a concrete input.
In scenario state `w9` call 3 is `CONNECTED` and assigned to agent 0.
The first `endCall` succeeds and folds one call into agent 0's statistics
(`totalCalls = 1`).  A second `endCall` on the already-`ENDED` call is
neither a no-op nor rejected: it returns `true` again, restamps the call
with a larger duration (15 ms instead of 5 ms), and runs
`releaseAgentFromCall` a second time, double-incrementing the agent's
`totalCalls` to 2. -/
theorem C2_endCall_not_idempotent_bug :
    (CallService.endCall w9 3 (some 0) true 10).1 = true
    ∧ (mapGet (CallService.endCall w9 3 (some 0) true 10).2.calls 3).map
        Call.status = some CallStatus.ended
    ∧ (mapGet (CallService.endCall w9 3 (some 0) true 10).2.agents 0).map
        (fun a => a.statistics.totalCalls) = some 1
    ∧ (CallService.endCall (CallService.endCall w9 3 (some 0) true 10).2
        3 (some 0) true 20).1 = true
    ∧ (mapGet (CallService.endCall (CallService.endCall w9 3 (some 0) true 10).2
          3 (some 0) true 20).2.agents 0).map
        (fun a => a.statistics.totalCalls) = some 2
    ∧ (mapGet (CallService.endCall (CallService.endCall w9 3 (some 0) true 10).2
          3 (some 0) true 20).2.calls 3).map Call.duration
        = some (some 15) := by
  decide

/-! ### Claim C3 — transferCall never releases the origin agent of a live
call (code bug) -/

/-- C3: evaluation of the transfer defect at a concrete input.  In
scenario state `w9` call 3 is live (`CONNECTED`, `duration`
still `undefined`) and assigned to agent 0; agent 1 is `AVAILABLE`.
`transferCall` succeeds, flips the call to `TRANSFERRED` and reserves
agent 1, but — because the release is guarded by `if (call.duration)`,
which only `endCall` ever sets — agent 0 is never released: it stays
`IN_CALL`, still bound to call 3, with zero statistics folded. -/
theorem C3_transfer_never_releases_bug :
    (mapGet w9.calls 3).map Call.status = some CallStatus.connected
    ∧ (mapGet w9.calls 3).map Call.duration = some none
    ∧ (mapGet w9.calls 3).map Call.assignedAgentId = some (some 0)
    ∧ (mapGet w9.agents 1).map Agent.status = some AgentStatus.available
    ∧ (CallService.transferCall w9 3 0 1 6).1 = true
    ∧ (mapGet (CallService.transferCall w9 3 0 1 6).2.calls 3).map Call.status
        = some CallStatus.transferred
    ∧ (mapGet (CallService.transferCall w9 3 0 1 6).2.agents 0).map Agent.status
        = some AgentStatus.in_call
    ∧ (mapGet (CallService.transferCall w9 3 0 1 6).2.agents 0).map
        Agent.currentCallId = some (some 3)
    ∧ (mapGet (CallService.transferCall w9 3 0 1 6).2.agents 0).map
        (fun a => a.statistics.totalCalls) = some 0 := by
  decide

/-! ### Claim C6 — overflow candidates and overflow routing -/

theorem mem_available_status {s : SysState} {groupId : Nat} {a : Agent}
    (h : a ∈ AgentService.getAvailableAgentsByGroup s groupId) :
    a.status = AgentStatus.available ∧ a ∈ mapValues s.agents := by
  unfold AgentService.getAvailableAgentsByGroup at h
  have h1 := List.of_mem_filter h
  have h2 := List.mem_of_mem_filter h
  unfold AgentService.getAgentsByGroup at h2
  exact ⟨by simpa using h1, List.mem_of_mem_filter h2⟩

theorem available_get {s : SysState} {groupId : Nat} {a : Agent}
    (hwf : agentsWF s)
    (h : a ∈ AgentService.getAvailableAgentsByGroup s groupId) :
    mapGet s.agents a.id = some a := by
  obtain ⟨hst, hmem⟩ := mem_available_status h
  exact mapGet_of_mem_values Agent.id hwf.1 hwf.2 hmem

theorem getAvailableAgentsByGroup_eq_of_agents {s s' : SysState}
    (h : s'.agents = s.agents) (groupId : Nat) :
    AgentService.getAvailableAgentsByGroup s' groupId =
      AgentService.getAvailableAgentsByGroup s groupId := by
  simp [AgentService.getAvailableAgentsByGroup, getAgentsByGroup_eq_of_agents h]

theorem callAssign_empty {s : SysState} {call : Call} (now : Nat)
    (h : AgentService.getAvailableAgentsByGroup s call.groupId = []) :
    CallService.assignCallToAgent s call now = (none, s) := by
  simp [CallService.assignCallToAgent, h]

theorem callAssign_cons {s : SysState} {call : Call} {a : Agent}
    {rest : List Agent} (now : Nat) (hwf : agentsWF s)
    (h : AgentService.getAvailableAgentsByGroup s call.groupId = a :: rest) :
    CallService.assignCallToAgent s call now =
      (some a, { s with agents := mapSet s.agents a.id (AgentService.reservedAgent a call.id now) }) := by
  have hmem : a ∈ AgentService.getAvailableAgentsByGroup s call.groupId := by
    rw [h]
    exact List.mem_cons_self _ _
  have hget := available_get hwf hmem
  have hst := (mem_available_status hmem).1
  simp only [CallService.assignCallToAgent, h]
  rw [assignCallToAgent_success call.id now hget hst]

theorem reduceOption_filter_eq_filterMap (s : SysState) (l : List Nat) :
    ((l.map (mapGet s.groups)).reduceOption).filter
        (fun group => (AgentService.getAvailableAgentsByGroup s group.id).length > 0)
      = l.filterMap (fun id =>
          match mapGet s.groups id with
          | none => none
          | some candidate =>
            if AgentService.getAvailableAgentsByGroup s candidate.id ≠ []
            then some candidate else none) := by
  induction l with
  | nil => rfl
  | cons i l ih =>
    rcases hg : mapGet s.groups i with _ | c
    · simp [hg, ih]
    · by_cases hav : AgentService.getAvailableAgentsByGroup s c.id = []
      · simp [hg, hav, ih, List.filter_cons]
      · have hlen : (AgentService.getAvailableAgentsByGroup s c.id).length > 0 :=
          List.length_pos.2 hav
        simp [hg, hav, ih, List.filter_cons, hlen]

theorem getAvailableGroups_eq_spec (s : SysState) (groupId : Nat) :
    GroupService.getAvailableGroups s groupId = overflowCandidatesSpec s groupId := by
  unfold GroupService.getAvailableGroups overflowCandidatesSpec
  rcases mapGet s.groups groupId with _ | g
  · rfl
  · cases hov : g.overflowEnabled
    · simp [hov]
    · simpa [hov] using reduceOption_filter_eq_filterMap s g.overflowGroupIds

theorem mem_getAvailableGroups {s : SysState} {groupId : Nat} {g : Group}
    (h : g ∈ GroupService.getAvailableGroups s groupId) :
    (AgentService.getAvailableAgentsByGroup s g.id).length > 0 := by
  unfold GroupService.getAvailableGroups at h
  rcases hgo : mapGet s.groups groupId with _ | og
  · simp only [hgo] at h
    simp at h
  · simp only [hgo] at h
    cases hov : og.overflowEnabled
    · simp [hov] at h
    · simp only [hov, Bool.not_true, Bool.false_eq_true, if_false, ite_false] at h
      have := List.of_mem_filter h
      simpa using this

/-- C6: the overflow-candidates contract.  First, `getAvailableGroups`
coincides with the specification's `overflowCandidates`: the configured
`overflowGroupIds`, in their original order, restricted to groups that
exist and currently have an available agent.  Second, when the original
group does not exist or has `overflowEnabled = false`, the candidate list
is empty and `tryOverflowRouting` leaves the call unassigned and the
state untouched.  Third, when the candidate list is non-empty, overflow
routing assigns the call to the first candidate group: the call moves to
that group (`groupId` mutated), is bound to one of its available agents
and goes `RINGING`. -/
theorem C6_overflow_candidates (s : SysState) (groupId : Nat) :
    GroupService.getAvailableGroups s groupId = overflowCandidatesSpec s groupId
    ∧ ((mapGet s.groups groupId = none ∨
          ∃ g, mapGet s.groups groupId = some g ∧ g.overflowEnabled = false) →
        GroupService.getAvailableGroups s groupId = []
        ∧ ∀ (call : Call) (now : Nat), call.groupId = groupId →
            CallService.tryOverflowRouting s call now = (false, call, s))
    ∧ (agentsWF s →
        ∀ (call : Call) (now : Nat) (g : Group) (rest : List Group),
          call.groupId = groupId →
          GroupService.getAvailableGroups s groupId = g :: rest →
          (CallService.tryOverflowRouting s call now).1 = true
          ∧ ∃ agent ∈ AgentService.getAvailableAgentsByGroup s g.id,
              (CallService.tryOverflowRouting s call now).2.1 =
                CallService.ringingCall { call with groupId := g.id } agent.id
              ∧ mapGet (CallService.tryOverflowRouting s call now).2.2.calls call.id
                  = some (CallService.ringingCall { call with groupId := g.id } agent.id)) := by
  refine ⟨getAvailableGroups_eq_spec s groupId, ?_, ?_⟩
  · intro hempty
    have hgs : GroupService.getAvailableGroups s groupId = [] := by
      rcases hempty with h | ⟨g, hg, hov⟩
      · simp [GroupService.getAvailableGroups, h]
      · simp [GroupService.getAvailableGroups, hg, hov]
    refine ⟨hgs, ?_⟩
    intro call now hgid
    unfold CallService.tryOverflowRouting
    rw [hgid, hgs]
    rfl
  · intro hwf call now g rest hgid hgs
    have hgs' : GroupService.getAvailableGroups s call.groupId = g :: rest := by
      rw [hgid]
      exact hgs
    have hglen : (AgentService.getAvailableAgentsByGroup s g.id).length > 0 :=
      mem_getAvailableGroups (by rw [hgs']; exact List.mem_cons_self _ _)
    rcases havail : AgentService.getAvailableAgentsByGroup s g.id with _ | ⟨a, arest⟩
    · rw [havail] at hglen
      simp at hglen
    · have hamem : a ∈ AgentService.getAvailableAgentsByGroup s g.id := by
        rw [havail]
        exact List.mem_cons_self _ _
      have hwf1 : agentsWF
          { s with calls := mapSet s.calls call.id ({ call with groupId := g.id }) } :=
        hwf
      have havail1 : AgentService.getAvailableAgentsByGroup
          { s with calls := mapSet s.calls call.id ({ call with groupId := g.id }) }
          ({ call with groupId := g.id } : Call).groupId = a :: arest := by
        rw [getAvailableAgentsByGroup_eq_of_agents rfl]
        exact havail
      have hassign := callAssign_cons now hwf1 havail1
      unfold CallService.tryOverflowRouting
      rw [hgs']
      simp only [CallService.overflowLoop, hglen, if_true]
      rw [hassign]
      exact ⟨rfl, a, List.mem_cons_self _ _, rfl, mapGet_set_self _ _ _⟩

/-- Witness for C6 on the overflow scenario `o8`: group 2's candidate
list is exactly `[group 4]` (group 3 has no available agent), routing a
call of group 2 lands on group 4's available agent, and a call of the
overflow-disabled group 5 is left unassigned with the state untouched. -/
theorem C6_overflow_candidates_witness :
    agentsWF o8
    ∧ GroupService.getAvailableGroups o8 2 = overflowCandidatesSpec o8 2
    ∧ CallService.tryOverflowRouting o8 cOverflowD 9 = (false, cOverflowD, o8)
    ∧ (CallService.tryOverflowRouting o8 cOverflowA 9).1 = true
    ∧ (∃ agent ∈ AgentService.getAvailableAgentsByGroup o8
          ((mapGet o8.groups 4).getD default).id,
        (CallService.tryOverflowRouting o8 cOverflowA 9).2.1 =
          CallService.ringingCall
            { cOverflowA with groupId := ((mapGet o8.groups 4).getD default).id }
            agent.id
        ∧ mapGet (CallService.tryOverflowRouting o8 cOverflowA 9).2.2.calls
              cOverflowA.id
            = some (CallService.ringingCall
                { cOverflowA with groupId := ((mapGet o8.groups 4).getD default).id }
                agent.id)) := by
  have hwf : agentsWF o8 := by decide
  have hlist : GroupService.getAvailableGroups o8 2 =
      [(mapGet o8.groups 4).getD default] := by decide
  have h3 := (C6_overflow_candidates o8 2).2.2 hwf cOverflowA 9
    ((mapGet o8.groups 4).getD default) [] rfl hlist
  have h2 := ((C6_overflow_candidates o8 5).2.1
    (Or.inr ⟨(mapGet o8.groups 5).getD default, by decide, by decide⟩)).2
    cOverflowD 9 rfl
  exact ⟨hwf, (C6_overflow_candidates o8 2).1, h2, h3.1, h3.2⟩

/-! ### Claim C1 — the agent/call consistency invariant

Generic preservation lemmas for the inductive invariant `Inv`, then one
preservation lemma per `StepCore` operation, the induction, and the claim
itself. -/

theorem inv_clock_mono {s : SysState} {t t' : Nat} (h : Inv s t)
    (ht : t ≤ t') : Inv s t' :=
  { h with callTime := fun i c hc => le_trans (h.callTime i c hc) ht }

theorem inv_mono {s s' : SysState} {t : Nat} (h : Inv s t)
    (ha : s'.agents = s.agents) (hc : s'.calls = s.calls)
    (hn : s.nextId ≤ s'.nextId) : Inv s' t := by
  refine ⟨?_, ?_, ?_, ?_, ?_, ?_, ?_, ?_, ?_, ?_, ?_, ?_⟩
  · rw [ha]; exact h.agentKeys
  · rw [hc]; exact h.callKeys
  · rw [ha]; exact h.agentNodup
  · rw [hc]; exact h.callNodup
  · rw [ha]; exact fun p hp => lt_of_lt_of_le (h.agentFresh p hp) hn
  · rw [hc]; exact fun p hp => lt_of_lt_of_le (h.callFresh p hp) hn
  · rw [ha]; exact h.statusCur
  · rw [ha, hc]; exact h.curLive
  · rw [ha, hc]; exact h.liveCur
  · rw [hc]; exact h.assignedNotIncoming
  · rw [hc]; exact h.noTransferred
  · rw [hc]; exact h.callTime

theorem inv_init : Inv initialState 0 := by
  refine ⟨?_, ?_, ?_, ?_, ?_, ?_, ?_, ?_, ?_, ?_, ?_, ?_⟩ <;>
    simp [initialState, mapGet]

theorem inv_set_agent_compat {s : SysState} {t agentId : Nat} {a a' : Agent}
    (h : Inv s t) (hget : mapGet s.agents agentId = some a)
    (hid : a'.id = a.id)
    (hst : a'.status = AgentStatus.in_call ↔ a.status = AgentStatus.in_call)
    (hcur : a'.currentCallId = a.currentCallId) :
    Inv { s with agents := mapSet s.agents agentId a' } t := by
  have hkey : a.id = agentId := key_of_mapGet Agent.id h.agentKeys hget
  have hmem : (agentId, a) ∈ s.agents := mem_of_mapGet hget
  refine ⟨?_, h.callKeys, nodup_keys_mapSet h.agentNodup, h.callNodup, ?_,
    h.callFresh, ?_, ?_, ?_, h.assignedNotIncoming, h.noTransferred, h.callTime⟩
  · intro p hp
    rcases mem_mapSet hp with rfl | hp'
    · rw [hid, hkey]
    · exact h.agentKeys p hp'
  · intro p hp
    rcases mem_mapSet hp with rfl | hp'
    · exact h.agentFresh (agentId, a) hmem
    · exact h.agentFresh p hp'
  · intro i b hb
    rw [mapGet_set_cases] at hb
    by_cases hi : i = agentId
    · rw [if_pos hi] at hb
      cases hb
      rw [hst, hcur]
      exact h.statusCur agentId a hget
    · rw [if_neg hi] at hb
      exact h.statusCur i b hb
  · intro i b cid hb hbc
    rw [mapGet_set_cases] at hb
    by_cases hi : i = agentId
    · rw [if_pos hi] at hb
      cases hb
      rw [hcur] at hbc
      obtain ⟨c, hc1, hc2, hc3⟩ := h.curLive agentId a cid hget hbc
      exact ⟨c, hc1, by rw [hid]; exact hc2, hc3⟩
    · rw [if_neg hi] at hb
      exact h.curLive i b cid hb hbc
  · intro i c hcget hlive aid hassigned
    obtain ⟨b, hb1, hb2⟩ := h.liveCur i c hcget hlive aid hassigned
    by_cases hi : aid = agentId
    · subst hi
      rw [hget] at hb1
      cases hb1
      exact ⟨a', by rw [mapGet_set_cases, if_pos rfl], by rw [hcur]; exact hb2⟩
    · exact ⟨b, by rw [mapGet_set_cases, if_neg hi]; exact hb1, hb2⟩

theorem inv_set_call_compat {s : SysState} {t callId : Nat} {c c' : Call}
    (h : Inv s t) (hget : mapGet s.calls callId = some c)
    (hid : c'.id = c.id) (hassigned : c'.assignedAgentId = c.assignedAgentId)
    (hstart : c'.startTime = c.startTime)
    (hlive : liveCall c' ↔ liveCall c)
    (hni : c'.assignedAgentId.isSome → c'.status ≠ CallStatus.incoming)
    (hnt : c'.status ≠ CallStatus.transferred) :
    Inv { s with calls := mapSet s.calls callId c' } t := by
  have hkey : c.id = callId := key_of_mapGet Call.id h.callKeys hget
  have hmem : (callId, c) ∈ s.calls := mem_of_mapGet hget
  refine ⟨h.agentKeys, ?_, h.agentNodup, nodup_keys_mapSet h.callNodup,
    h.agentFresh, ?_, h.statusCur, ?_, ?_, ?_, ?_, ?_⟩
  · intro p hp
    rcases mem_mapSet hp with rfl | hp'
    · rw [hid, hkey]
    · exact h.callKeys p hp'
  · intro p hp
    rcases mem_mapSet hp with rfl | hp'
    · exact h.callFresh (callId, c) hmem
    · exact h.callFresh p hp'
  · intro i b cid hb hbc
    obtain ⟨c0, hc1, hc2, hc3⟩ := h.curLive i b cid hb hbc
    by_cases hi : cid = callId
    · subst hi
      rw [hget] at hc1
      cases hc1
      refine ⟨c', by rw [mapGet_set_cases, if_pos rfl], ?_, hlive.2 hc3⟩
      rw [hassigned]
      exact hc2
    · exact ⟨c0, by rw [mapGet_set_cases, if_neg hi]; exact hc1, hc2, hc3⟩
  · intro i cc hcget hl aid ha
    rw [mapGet_set_cases] at hcget
    by_cases hi : i = callId
    · rw [if_pos hi] at hcget
      cases hcget
      rw [hassigned] at ha
      obtain ⟨b, hb1, hb2⟩ := h.liveCur callId c hget (hlive.1 hl) aid ha
      exact ⟨b, hb1, by rw [hid]; exact hb2⟩
    · rw [if_neg hi] at hcget
      exact h.liveCur i cc hcget hl aid ha
  · intro i cc hcget hsome
    rw [mapGet_set_cases] at hcget
    by_cases hi : i = callId
    · rw [if_pos hi] at hcget
      cases hcget
      exact hni hsome
    · rw [if_neg hi] at hcget
      exact h.assignedNotIncoming i cc hcget hsome
  · intro i cc hcget
    rw [mapGet_set_cases] at hcget
    by_cases hi : i = callId
    · rw [if_pos hi] at hcget
      cases hcget
      exact hnt
    · rw [if_neg hi] at hcget
      exact h.noTransferred i cc hcget
  · intro i cc hcget
    rw [mapGet_set_cases] at hcget
    by_cases hi : i = callId
    · rw [if_pos hi] at hcget
      cases hcget
      rw [hstart]
      exact h.callTime callId c hget
    · rw [if_neg hi] at hcget
      exact h.callTime i cc hcget

theorem inv_insert_agent {s : SysState} {t : Nat} (h : Inv s t) {a : Agent}
    (hid : a.id = s.nextId) (hst : a.status ≠ AgentStatus.in_call)
    (hcur : a.currentCallId = none) :
    Inv { s with agents := mapSet s.agents a.id a, nextId := s.nextId + 1 } t := by
  have hfree : mapGet s.agents a.id = none := by
    rw [hid]
    exact mapGet_none_of_lt h.agentFresh
  have hnotmem : a.id ∉ s.agents.map Prod.fst := by
    rw [hid]
    exact not_mem_keys_of_lt h.agentFresh
  refine ⟨?_, h.callKeys, ?_, h.callNodup, ?_, ?_, ?_, ?_, ?_,
    h.assignedNotIncoming, h.noTransferred, h.callTime⟩
  · intro p hp
    rcases mem_mapSet hp with rfl | hp'
    · rfl
    · exact h.agentKeys p hp'
  · rw [keys_mapSet, if_neg hnotmem]
    simp [List.nodup_append, h.agentNodup, hnotmem]
  · intro p hp
    rcases mem_mapSet hp with rfl | hp'
    · simpa [hid] using Nat.lt_succ_self s.nextId
    · exact Nat.lt_succ_of_lt (h.agentFresh p hp')
  · exact fun p hp => Nat.lt_succ_of_lt (h.callFresh p hp)
  · intro i b hb
    rw [mapGet_set_cases] at hb
    by_cases hi : i = a.id
    · rw [if_pos hi] at hb
      cases hb
      simp [hst, hcur]
    · rw [if_neg hi] at hb
      exact h.statusCur i b hb
  · intro i b cid hb hbc
    rw [mapGet_set_cases] at hb
    by_cases hi : i = a.id
    · rw [if_pos hi] at hb
      cases hb
      rw [hcur] at hbc
      cases hbc
    · rw [if_neg hi] at hb
      exact h.curLive i b cid hb hbc
  · intro i c hcget hl aid ha
    obtain ⟨b, hb1, hb2⟩ := h.liveCur i c hcget hl aid ha
    have haid : aid ≠ a.id := by
      intro heq
      rw [heq, hfree] at hb1
      cases hb1
    exact ⟨b, by rw [mapGet_set_cases, if_neg haid]; exact hb1, hb2⟩

theorem inv_insert_incoming {s : SysState} {t : Nat} (h : Inv s t) {c : Call}
    (hid : c.id = s.nextId) (hassigned : c.assignedAgentId = none)
    (hstatus : c.status = CallStatus.incoming) (hstart : c.startTime ≤ t) :
    Inv { s with calls := mapSet s.calls c.id c, nextId := s.nextId + 1 } t := by
  have hfree : mapGet s.calls c.id = none := by
    rw [hid]
    exact mapGet_none_of_lt h.callFresh
  have hnotmem : c.id ∉ s.calls.map Prod.fst := by
    rw [hid]
    exact not_mem_keys_of_lt h.callFresh
  refine ⟨h.agentKeys, ?_, h.agentNodup, ?_, ?_, ?_, h.statusCur, ?_, ?_,
    ?_, ?_, ?_⟩
  · intro p hp
    rcases mem_mapSet hp with rfl | hp'
    · rfl
    · exact h.callKeys p hp'
  · rw [keys_mapSet, if_neg hnotmem]
    simp [List.nodup_append, h.callNodup, hnotmem]
  · exact fun p hp => Nat.lt_succ_of_lt (h.agentFresh p hp)
  · intro p hp
    rcases mem_mapSet hp with rfl | hp'
    · simpa [hid] using Nat.lt_succ_self s.nextId
    · exact Nat.lt_succ_of_lt (h.callFresh p hp')
  · intro i b cid hb hbc
    obtain ⟨c0, hc1, hc2, hc3⟩ := h.curLive i b cid hb hbc
    have hcid : cid ≠ c.id := by
      intro heq
      rw [heq, hfree] at hc1
      cases hc1
    exact ⟨c0, by rw [mapGet_set_cases, if_neg hcid]; exact hc1, hc2, hc3⟩
  · intro i cc hcget hl aid ha
    rw [mapGet_set_cases] at hcget
    by_cases hi : i = c.id
    · rw [if_pos hi] at hcget
      cases hcget
      simp [liveCall, hstatus] at hl
    · rw [if_neg hi] at hcget
      exact h.liveCur i cc hcget hl aid ha
  · intro i cc hcget hsome
    rw [mapGet_set_cases] at hcget
    by_cases hi : i = c.id
    · rw [if_pos hi] at hcget
      cases hcget
      rw [hassigned] at hsome
      cases hsome
    · rw [if_neg hi] at hcget
      exact h.assignedNotIncoming i cc hcget hsome
  · intro i cc hcget
    rw [mapGet_set_cases] at hcget
    by_cases hi : i = c.id
    · rw [if_pos hi] at hcget
      cases hcget
      rw [hstatus]
      intro hcontra
      cases hcontra
    · rw [if_neg hi] at hcget
      exact h.noTransferred i cc hcget
  · intro i cc hcget
    rw [mapGet_set_cases] at hcget
    by_cases hi : i = c.id
    · rw [if_pos hi] at hcget
      cases hcget
      exact hstart
    · rw [if_neg hi] at hcget
      exact h.callTime i cc hcget

theorem inv_assign_ringing {s : SysState} {t : Nat} {call : Call} {a : Agent}
    {arest : List Agent} (now : Nat) (h : Inv s t)
    (hcall : mapGet s.calls call.id = some call)
    (hna : call.assignedAgentId = none)
    (hst : call.status = CallStatus.incoming)
    (havail : AgentService.getAvailableAgentsByGroup s call.groupId = a :: arest) :
    Inv { s with agents := mapSet s.agents a.id (AgentService.reservedAgent a call.id now), calls := mapSet s.calls call.id (CallService.ringingCall call a.id) } t := by
  have hamem : a ∈ AgentService.getAvailableAgentsByGroup s call.groupId := by
    rw [havail]
    exact List.mem_cons_self _ _
  have hgeta : mapGet s.agents a.id = some a :=
    available_get ⟨h.agentKeys, h.agentNodup⟩ hamem
  have hast : a.status = AgentStatus.available := (mem_available_status hamem).1
  have hacur : a.currentCallId = none := by
    rcases hoc : a.currentCallId with _ | cid
    · rfl
    · have hin := (h.statusCur a.id a hgeta).2 (by rw [hoc]; rfl)
      rw [hast] at hin
      cases hin
  have hamem' : (a.id, a) ∈ s.agents := mem_of_mapGet hgeta
  have hcmem : (call.id, call) ∈ s.calls := mem_of_mapGet hcall
  refine ⟨?_, ?_, nodup_keys_mapSet h.agentNodup, nodup_keys_mapSet h.callNodup,
    ?_, ?_, ?_, ?_, ?_, ?_, ?_, ?_⟩
  · intro p hp
    rcases mem_mapSet hp with rfl | hp'
    · simp [AgentService.reservedAgent]
    · exact h.agentKeys p hp'
  · intro p hp
    rcases mem_mapSet hp with rfl | hp'
    · simp [CallService.ringingCall]
    · exact h.callKeys p hp'
  · intro p hp
    rcases mem_mapSet hp with rfl | hp'
    · exact h.agentFresh (a.id, a) hamem'
    · exact h.agentFresh p hp'
  · intro p hp
    rcases mem_mapSet hp with rfl | hp'
    · exact h.callFresh (call.id, call) hcmem
    · exact h.callFresh p hp'
  · intro i b hb
    rw [mapGet_set_cases] at hb
    by_cases hi : i = a.id
    · rw [if_pos hi] at hb
      cases hb
      simp [AgentService.reservedAgent]
    · rw [if_neg hi] at hb
      exact h.statusCur i b hb
  · intro i b cid hb hbc
    rw [mapGet_set_cases] at hb
    by_cases hi : i = a.id
    · rw [if_pos hi] at hb
      cases hb
      simp only [AgentService.reservedAgent, Option.some.injEq] at hbc
      subst hbc
      refine ⟨CallService.ringingCall call a.id,
        by rw [mapGet_set_cases, if_pos rfl], ?_, ?_⟩
      · simp [CallService.ringingCall, AgentService.reservedAgent]
      · simp [liveCall, CallService.ringingCall]
    · rw [if_neg hi] at hb
      obtain ⟨c0, hc1, hc2, hc3⟩ := h.curLive i b cid hb hbc
      have hcid : cid ≠ call.id := by
        intro heq
        rw [heq, hcall] at hc1
        cases hc1
        simp [liveCall, hst] at hc3
      exact ⟨c0, by rw [mapGet_set_cases, if_neg hcid]; exact hc1, hc2, hc3⟩
  · intro i c' hcget hl aid ha
    rw [mapGet_set_cases] at hcget
    by_cases hi : i = call.id
    · rw [if_pos hi] at hcget
      cases hcget
      simp only [CallService.ringingCall, Option.some.injEq] at ha
      subst ha
      refine ⟨AgentService.reservedAgent a call.id now,
        by rw [mapGet_set_cases, if_pos rfl], ?_⟩
      simp [AgentService.reservedAgent, CallService.ringingCall]
    · rw [if_neg hi] at hcget
      obtain ⟨b, hb1, hb2⟩ := h.liveCur i c' hcget hl aid ha
      have haid : aid ≠ a.id := by
        intro heq
        rw [heq, hgeta] at hb1
        cases hb1
        rw [hacur] at hb2
        cases hb2
      exact ⟨b, by rw [mapGet_set_cases, if_neg haid]; exact hb1, hb2⟩
  · intro i c' hcget hsome
    rw [mapGet_set_cases] at hcget
    by_cases hi : i = call.id
    · rw [if_pos hi] at hcget
      cases hcget
      simp [CallService.ringingCall]
    · rw [if_neg hi] at hcget
      exact h.assignedNotIncoming i c' hcget hsome
  · intro i c' hcget
    rw [mapGet_set_cases] at hcget
    by_cases hi : i = call.id
    · rw [if_pos hi] at hcget
      cases hcget
      simp [CallService.ringingCall]
    · rw [if_neg hi] at hcget
      exact h.noTransferred i c' hcget
  · intro i c' hcget
    rw [mapGet_set_cases] at hcget
    by_cases hi : i = call.id
    · rw [if_pos hi] at hcget
      cases hcget
      simpa [CallService.ringingCall] using h.callTime call.id call hcall
    · rw [if_neg hi] at hcget
      exact h.callTime i c' hcget

theorem inv_end_unassigned {s : SysState} {t callId : Nat} {call : Call}
    (h : Inv s t) (hc : mapGet s.calls callId = some call)
    (hna : call.assignedAgentId = none) {c2 : Call}
    (hid2 : c2.id = call.id) (hna2 : c2.assignedAgentId = none)
    (hst2 : c2.status = CallStatus.ended)
    (hstart2 : c2.startTime = call.startTime) :
    Inv { s with calls := mapSet s.calls callId c2 } t := by
  have hkeyC : call.id = callId := key_of_mapGet Call.id h.callKeys hc
  have hcmem : (callId, call) ∈ s.calls := mem_of_mapGet hc
  refine ⟨h.agentKeys, ?_, h.agentNodup, nodup_keys_mapSet h.callNodup,
    h.agentFresh, ?_, h.statusCur, ?_, ?_, ?_, ?_, ?_⟩
  · intro p hp
    rcases mem_mapSet hp with rfl | hp'
    · rw [hid2, hkeyC]
    · exact h.callKeys p hp'
  · intro p hp
    rcases mem_mapSet hp with rfl | hp'
    · exact h.callFresh (callId, call) hcmem
    · exact h.callFresh p hp'
  · intro i b cid hb hbc
    obtain ⟨c0, hc1, hc2', hc3⟩ := h.curLive i b cid hb hbc
    have hcid : cid ≠ callId := by
      intro heq
      rw [heq, hc] at hc1
      cases hc1
      rw [hna] at hc2'
      cases hc2'
    exact ⟨c0, by rw [mapGet_set_cases, if_neg hcid]; exact hc1, hc2', hc3⟩
  · intro i c' hcget hl aid ha
    rw [mapGet_set_cases] at hcget
    by_cases hi : i = callId
    · rw [if_pos hi] at hcget
      cases hcget
      simp [liveCall, hst2] at hl
    · rw [if_neg hi] at hcget
      exact h.liveCur i c' hcget hl aid ha
  · intro i c' hcget hsome
    rw [mapGet_set_cases] at hcget
    by_cases hi : i = callId
    · rw [if_pos hi] at hcget
      cases hcget
      rw [hst2]
      intro hcontra
      cases hcontra
    · rw [if_neg hi] at hcget
      exact h.assignedNotIncoming i c' hcget hsome
  · intro i c' hcget
    rw [mapGet_set_cases] at hcget
    by_cases hi : i = callId
    · rw [if_pos hi] at hcget
      cases hcget
      rw [hst2]
      intro hcontra
      cases hcontra
    · rw [if_neg hi] at hcget
      exact h.noTransferred i c' hcget
  · intro i c' hcget
    rw [mapGet_set_cases] at hcget
    by_cases hi : i = callId
    · rw [if_pos hi] at hcget
      cases hcget
      rw [hstart2]
      exact h.callTime callId call hc
    · rw [if_neg hi] at hcget
      exact h.callTime i c' hcget

theorem inv_end_assigned {s : SysState} {t callId aid : Nat} {call : Call}
    {a0 : Agent} (h : Inv s t) (hc : mapGet s.calls callId = some call)
    (hassigned : call.assignedAgentId = some aid)
    (ha0 : mapGet s.agents aid = some a0)
    (hcur0 : a0.currentCallId = some callId)
    (d : ℚ) (now : Nat) {c2 : Call}
    (hid2 : c2.id = call.id) (hst2 : c2.status = CallStatus.ended)
    (hstart2 : c2.startTime = call.startTime) :
    Inv { s with agents := mapSet s.agents aid (AgentService.releasedAgent a0 d now), calls := mapSet s.calls callId c2 } t := by
  have hkeyC : call.id = callId := key_of_mapGet Call.id h.callKeys hc
  have hkeyA : a0.id = aid := key_of_mapGet Agent.id h.agentKeys ha0
  have hcmem : (callId, call) ∈ s.calls := mem_of_mapGet hc
  have hamem : (aid, a0) ∈ s.agents := mem_of_mapGet ha0
  refine ⟨?_, ?_, nodup_keys_mapSet h.agentNodup, nodup_keys_mapSet h.callNodup,
    ?_, ?_, ?_, ?_, ?_, ?_, ?_, ?_⟩
  · intro p hp
    rcases mem_mapSet hp with rfl | hp'
    · simp [AgentService.releasedAgent, hkeyA]
    · exact h.agentKeys p hp'
  · intro p hp
    rcases mem_mapSet hp with rfl | hp'
    · rw [hid2, hkeyC]
    · exact h.callKeys p hp'
  · intro p hp
    rcases mem_mapSet hp with rfl | hp'
    · exact h.agentFresh (aid, a0) hamem
    · exact h.agentFresh p hp'
  · intro p hp
    rcases mem_mapSet hp with rfl | hp'
    · exact h.callFresh (callId, call) hcmem
    · exact h.callFresh p hp'
  · intro i b hb
    rw [mapGet_set_cases] at hb
    by_cases hi : i = aid
    · rw [if_pos hi] at hb
      cases hb
      simp [AgentService.releasedAgent]
    · rw [if_neg hi] at hb
      exact h.statusCur i b hb
  · intro i b cid hb hbc
    rw [mapGet_set_cases] at hb
    by_cases hi : i = aid
    · rw [if_pos hi] at hb
      cases hb
      simp [AgentService.releasedAgent] at hbc
    · rw [if_neg hi] at hb
      have hbkey : b.id = i := key_of_mapGet Agent.id h.agentKeys hb
      obtain ⟨c0, hc1, hc2', hc3⟩ := h.curLive i b cid hb hbc
      have hcid : cid ≠ callId := by
        intro heq
        rw [heq, hc] at hc1
        cases hc1
        rw [hassigned] at hc2'
        have hbid : b.id = aid := Option.some.inj hc2'.symm
        exact hi (hbkey ▸ hbid)
      exact ⟨c0, by rw [mapGet_set_cases, if_neg hcid]; exact hc1, hc2', hc3⟩
  · intro i c' hcget hl aid' ha'
    rw [mapGet_set_cases] at hcget
    by_cases hi : i = callId
    · rw [if_pos hi] at hcget
      cases hcget
      simp [liveCall, hst2] at hl
    · rw [if_neg hi] at hcget
      have hckey : c'.id = i := key_of_mapGet Call.id h.callKeys hcget
      obtain ⟨b, hb1, hb2⟩ := h.liveCur i c' hcget hl aid' ha'
      have haid : aid' ≠ aid := by
        intro heq
        rw [heq, ha0] at hb1
        cases hb1
        rw [hcur0] at hb2
        have hcc : callId = c'.id := Option.some.inj hb2
        rw [hckey] at hcc
        exact hi hcc.symm
      exact ⟨b, by rw [mapGet_set_cases, if_neg haid]; exact hb1, hb2⟩
  · intro i c' hcget hsome
    rw [mapGet_set_cases] at hcget
    by_cases hi : i = callId
    · rw [if_pos hi] at hcget
      cases hcget
      rw [hst2]
      intro hcontra
      cases hcontra
    · rw [if_neg hi] at hcget
      exact h.assignedNotIncoming i c' hcget hsome
  · intro i c' hcget
    rw [mapGet_set_cases] at hcget
    by_cases hi : i = callId
    · rw [if_pos hi] at hcget
      cases hcget
      rw [hst2]
      intro hcontra
      cases hcontra
    · rw [if_neg hi] at hcget
      exact h.noTransferred i c' hcget
  · intro i c' hcget
    rw [mapGet_set_cases] at hcget
    by_cases hi : i = callId
    · rw [if_pos hi] at hcget
      cases hcget
      rw [hstart2]
      exact h.callTime callId call hc
    · rw [if_neg hi] at hcget
      exact h.callTime i c' hcget

theorem inv_updateGroupStatistics {s : SysState} {t : Nat} (h : Inv s t)
    (groupId : Nat) : Inv (GroupService.updateGroupStatistics s groupId) t := by
  obtain ⟨ha, hc, hn⟩ := updateGroupStatistics_parts s groupId
  exact inv_mono h ha hc (le_of_eq hn.symm)

theorem inv_createAgent {s : SysState} {t : Nat}
    (request : CreateAgentRequest) {now : Nat} (h : Inv s t) (ht : t ≤ now) :
    Inv (AgentService.createAgent s request now).2 now := by
  have h' := inv_clock_mono h ht
  exact inv_insert_agent h' rfl (fun hcontra => by cases hcontra) rfl

theorem inv_createGroup {s : SysState} {t : Nat}
    (request : CreateGroupRequest) {now : Nat} (h : Inv s t) (ht : t ≤ now) :
    Inv (GroupService.createGroup s request).2 now :=
  inv_mono (inv_clock_mono h ht) rfl rfl (Nat.le_succ _)

theorem inv_updateAgentStatus {s : SysState} {t id : Nat}
    {status : AgentStatus} {now : Nat} (h : Inv s t) (ht : t ≤ now)
    (hstatus : status ≠ AgentStatus.in_call)
    (hagent : ∀ a, mapGet s.agents id = some a →
      a.status ≠ AgentStatus.in_call) :
    Inv (AgentService.updateAgentStatus s id status now).2 now := by
  have h' := inv_clock_mono h ht
  rcases hget : mapGet s.agents id with _ | a
  · have hrun : (AgentService.updateAgentStatus s id status now).2 = s := by
      simp [AgentService.updateAgentStatus, AgentService.updateAgent, hget]
    rw [hrun]
    exact h'
  · have hrun := updateAgent_eq { status := some status } now hget
    simp only [AgentService.updateAgentStatus]
    rw [hrun]
    exact inv_set_agent_compat h' hget (by simp [AgentService.applyUpdate])
      (by simp [AgentService.applyUpdate, hstatus, hagent a hget])
      (by simp [AgentService.applyUpdate])

theorem inv_addAgentToGroup {s : SysState} {t groupId agentId : Nat}
    {now : Nat} (h : Inv s t) (ht : t ≤ now) :
    Inv (GroupService.addAgentToGroup s groupId agentId now).2 now := by
  have h' := inv_clock_mono h ht
  rcases hg : mapGet s.groups groupId with _ | g
  · have hrun : (GroupService.addAgentToGroup s groupId agentId now).2 = s := by
      simp [GroupService.addAgentToGroup, hg]
    rw [hrun]
    exact h'
  · rcases ha : mapGet s.agents agentId with _ | a
    · have hrun : (GroupService.addAgentToGroup s groupId agentId now).2 = s := by
        simp [GroupService.addAgentToGroup, hg, ha]
      rw [hrun]
      exact h'
    · by_cases hga : agentId ∈ g.agentIds <;> by_cases hag : groupId ∈ a.groupIds
      · have hrun : (GroupService.addAgentToGroup s groupId agentId now).2 =
            GroupService.updateGroupStatistics s groupId := by
          simp [GroupService.addAgentToGroup, hg, ha, hga, hag]
        rw [hrun]
        exact inv_updateGroupStatistics h' groupId
      · have hrun : (GroupService.addAgentToGroup s groupId agentId now).2 =
            GroupService.updateGroupStatistics
              (AgentService.updateAgent s agentId
                { groupIds := some (a.groupIds ++ [groupId]) } now).2 groupId := by
          simp [GroupService.addAgentToGroup, hg, ha, hga, hag]
        rw [hrun, updateAgent_eq _ now ha]
        refine inv_updateGroupStatistics (inv_set_agent_compat h' ha ?_ ?_ ?_) groupId
        · simp [AgentService.applyUpdate]
        · simp [AgentService.applyUpdate]
        · simp [AgentService.applyUpdate]
      · have hrun : (GroupService.addAgentToGroup s groupId agentId now).2 =
            GroupService.updateGroupStatistics
              { s with groups := mapSet s.groups groupId (GroupService.withAgentAdded g agentId) }
              groupId := by
          simp [GroupService.addAgentToGroup, hg, ha, hga, hag]
        rw [hrun]
        refine inv_updateGroupStatistics ?_ groupId
        exact inv_mono h' rfl rfl (le_refl _)
      · have hrun : (GroupService.addAgentToGroup s groupId agentId now).2 =
            GroupService.updateGroupStatistics
              (AgentService.updateAgent
                { s with groups := mapSet s.groups groupId (GroupService.withAgentAdded g agentId) }
                agentId { groupIds := some (a.groupIds ++ [groupId]) } now).2
              groupId := by
          simp [GroupService.addAgentToGroup, hg, ha, hga, hag]
        have hbase : Inv { s with groups := mapSet s.groups groupId (GroupService.withAgentAdded g agentId) } now :=
          inv_mono h' rfl rfl (le_refl _)
        rw [hrun, updateAgent_eq _ now (show mapGet ({ s with groups := mapSet s.groups groupId (GroupService.withAgentAdded g agentId) } : SysState).agents agentId = some a from ha)]
        refine inv_updateGroupStatistics (inv_set_agent_compat hbase (show mapGet ({ s with groups := mapSet s.groups groupId (GroupService.withAgentAdded g agentId) } : SysState).agents agentId = some a from ha) ?_ ?_ ?_) groupId
        · simp [AgentService.applyUpdate]
        · simp [AgentService.applyUpdate]
        · simp [AgentService.applyUpdate]

theorem inv_overflowLoop (gs : List Group) :
    ∀ (s : SysState) (t : Nat) (call : Call) (now : Nat), Inv s t →
      mapGet s.calls call.id = some call →
      call.assignedAgentId = none → call.status = CallStatus.incoming →
      Inv (CallService.overflowLoop s call now gs).2.2 t := by
  induction gs with
  | nil =>
    intro s t call now h _ _ _
    exact h
  | cons g rest ih =>
    intro s t call now h hc hna hst
    by_cases hlen : (AgentService.getAvailableAgentsByGroup s g.id).length > 0
    · have h1 : Inv { s with calls := mapSet s.calls call.id ({ call with groupId := g.id }) } t :=
        inv_set_call_compat h hc rfl rfl rfl Iff.rfl
          (fun hsome => by rw [show ({ call with groupId := g.id } : Call).assignedAgentId = call.assignedAgentId from rfl, hna] at hsome; cases hsome)
          (by show call.status ≠ CallStatus.transferred; rw [hst]; intro hh; cases hh)
      have hc1 : mapGet { s with calls := mapSet s.calls call.id ({ call with groupId := g.id }) }.calls
          ({ call with groupId := g.id } : Call).id = some { call with groupId := g.id } :=
        mapGet_set_self _ _ _
      simp only [CallService.overflowLoop, hlen, if_true]
      rcases havail : AgentService.getAvailableAgentsByGroup
          { s with calls := mapSet s.calls call.id ({ call with groupId := g.id }) }
          ({ call with groupId := g.id } : Call).groupId with _ | ⟨a, arest⟩
      · rw [callAssign_empty now havail]
        exact ih _ t { call with groupId := g.id } now h1 hc1 hna hst
      · rw [callAssign_cons now ⟨h1.agentKeys, h1.agentNodup⟩ havail]
        exact inv_assign_ringing now h1 hc1 hna hst havail
    · simp only [CallService.overflowLoop, hlen, if_false]
      exact ih s t call now h hc hna hst

theorem inv_assignOrOverflow {s1 : SysState} {t : Nat} {call : Call}
    (now : Nat) (h1 : Inv s1 t)
    (hc1 : mapGet s1.calls call.id = some call)
    (hna : call.assignedAgentId = none)
    (hst : call.status = CallStatus.incoming) :
    Inv (CallService.assignOrOverflow s1 call now).2 t := by
  rcases havail : AgentService.getAvailableAgentsByGroup s1 call.groupId
      with _ | ⟨a, arest⟩
  · simp only [CallService.assignOrOverflow]
    rw [callAssign_empty now havail]
    exact inv_overflowLoop _ s1 t call now h1 hc1 hna hst
  · simp only [CallService.assignOrOverflow]
    rw [callAssign_cons now ⟨h1.agentKeys, h1.agentNodup⟩ havail]
    exact inv_assign_ringing now h1 hc1 hna hst havail

theorem inv_handleIncomingCall {s : SysState} {t : Nat}
    (phoneNumber callerNumber : String) (acsEventData : Option AcsConnectionInfo)
    {now : Nat} (h : Inv s t) (ht : t ≤ now) :
    Inv (CallService.handleIncomingCall s phoneNumber callerNumber acsEventData now).2 now := by
  have h' := inv_clock_mono h ht
  rcases hg : GroupService.getGroupByPhoneNumber s phoneNumber with _ | group
  · have hrun : (CallService.handleIncomingCall s phoneNumber callerNumber acsEventData now).2 = s := by
      simp [CallService.handleIncomingCall, hg]
    rw [hrun]
    exact h'
  · have hrun : CallService.handleIncomingCall s phoneNumber callerNumber acsEventData now =
        CallService.assignOrOverflow
          { s with calls := mapSet s.calls (CallService.newIncomingCall s group callerNumber acsEventData now).id (CallService.newIncomingCall s group callerNumber acsEventData now), nextId := s.nextId + 1 }
          (CallService.newIncomingCall s group callerNumber acsEventData now) now := by
      simp [CallService.handleIncomingCall, hg]
    rw [hrun]
    have h1 := inv_insert_incoming h' (c := CallService.newIncomingCall s group callerNumber acsEventData now) rfl rfl rfl (le_refl now)
    exact inv_assignOrOverflow now h1 (mapGet_set_self _ _ _) rfl rfl

theorem inv_answerCall {s : SysState} {t callId agentId : Nat}
    {acsAnswerSuccess : Bool} {now : Nat} (h : Inv s t) (ht : t ≤ now) :
    Inv (CallService.answerCall s callId agentId acsAnswerSuccess).2 now := by
  have h' := inv_clock_mono h ht
  rcases hc : mapGet s.calls callId with _ | call
  · have hrun : (CallService.answerCall s callId agentId acsAnswerSuccess).2 = s := by
      simp [CallService.answerCall, hc]
    rw [hrun]
    exact h'
  · by_cases hguard : call.assignedAgentId ≠ some agentId ∨
        call.status ≠ CallStatus.ringing
    · have hrun : (CallService.answerCall s callId agentId acsAnswerSuccess).2 = s := by
        simp [CallService.answerCall, hc, hguard]
      rw [hrun]
      exact h'
    · push_neg at hguard
      cases acsAnswerSuccess
      · have hrun : (CallService.answerCall s callId agentId false).2 = s := by
          simp [CallService.answerCall, hc, hguard.1, hguard.2]
        rw [hrun]
        exact h'
      · have hrun : (CallService.answerCall s callId agentId true).2 =
            GroupService.updateGroupStatistics
              { s with calls := mapSet s.calls callId (CallService.connectedCall call) }
              (CallService.connectedCall call).groupId := by
          simp [CallService.answerCall, hc, hguard.1, hguard.2]
        rw [hrun]
        refine inv_updateGroupStatistics ?_ _
        refine inv_set_call_compat h' hc rfl rfl rfl ?_ ?_ ?_
        · simp [liveCall, CallService.connectedCall, hguard.2]
        · intro _
          simp [CallService.connectedCall]
        · simp [CallService.connectedCall]

theorem inv_endCall {s : SysState} {t callId : Nat} {agentIdOpt : Option Nat}
    {acsEndSuccess : Bool} {now : Nat} (h : Inv s t) (ht : t < now)
    (hnotEnded : ∀ c, mapGet s.calls callId = some c →
      c.status ≠ CallStatus.ended) :
    Inv (CallService.endCall s callId agentIdOpt acsEndSuccess now).2 now := by
  have h' := inv_clock_mono h (le_of_lt ht)
  rcases hc : mapGet s.calls callId with _ | call
  · have hrun : (CallService.endCall s callId agentIdOpt acsEndSuccess now).2 = s := by
      simp [CallService.endCall, hc]
    rw [hrun]
    exact h'
  · by_cases hguard : (match agentIdOpt with
        | some aid => decide (call.assignedAgentId ≠ some aid)
        | none => false) = true
    · have hrun : (CallService.endCall s callId agentIdOpt acsEndSuccess now).2 = s := by
        simp only [CallService.endCall, hc]
        rw [if_pos hguard]
      rw [hrun]
      exact h'
    · cases acsEndSuccess
      · have hrun : (CallService.endCall s callId agentIdOpt false now).2 = s := by
          simp only [CallService.endCall, hc]
          rw [if_neg hguard]
          simp
        rw [hrun]
        exact h'
      · -- gateway success
        have hstart : call.startTime ≤ t := h.callTime callId call hc
        have hdurpos : ((now : Int) - (call.startTime : Int)) ≠ 0 := by
          have hlt : call.startTime < now := lt_of_le_of_lt hstart ht
          omega
        rcases hassigned : call.assignedAgentId with _ | aid
        · -- no agent bound to the call
          simp only [CallService.endCall, hc]
          rw [if_neg hguard]
          simp only [Bool.not_true, Bool.false_eq_true, if_false, ite_false, hassigned]
          simp only [mapSet_set]
          refine inv_updateGroupStatistics ?_ _
          exact inv_end_unassigned h' hc hassigned (by simp [CallService.endedCall])
            (by simp [CallService.endedCall, hassigned])
            (by simp [CallService.endedCall]) (by simp [CallService.endedCall])
        · -- an agent is bound: it gets released
          have hlive : liveCall call := by
            have hne := hnotEnded call hc
            have hni := h.assignedNotIncoming callId call hc
              (by rw [hassigned]; rfl)
            have hnt := h.noTransferred callId call hc
            rcases hcs : call.status with _ | _ | _ | _ | _
            · exact absurd hcs hni
            · exact Or.inl hcs
            · exact Or.inr hcs
            · exact absurd hcs hne
            · exact absurd hcs hnt
          obtain ⟨a0, ha0, hcur0⟩ := h.liveCur callId call hc hlive aid hassigned
          have hkeyC : call.id = callId := key_of_mapGet Call.id h.callKeys hc
          have hcur0' : a0.currentCallId = some callId := by
            rw [hcur0, hkeyC]
          have htruthy : numTruthy (CallService.endedCall call now).duration = true := by
            simp [CallService.endedCall, numTruthy, hdurpos]
          simp only [CallService.endCall, hc]
          rw [if_neg hguard]
          simp only [Bool.not_true, Bool.false_eq_true, if_false, ite_false, hassigned]
          rw [if_pos htruthy]
          rw [releaseAgentFromCall_eq _ now
            (show mapGet ({ s with calls := mapSet s.calls callId ({ CallService.endedCall call now with waitTime := some 0 }) } : SysState).agents aid = some a0 from ha0)]
          simp only [mapSet_set]
          refine inv_updateGroupStatistics ?_ _
          exact inv_end_assigned h' hc hassigned ha0 hcur0' _ now
            (by simp [CallService.endedCall]) (by simp [CallService.endedCall])
            (by simp [CallService.endedCall])

theorem inv_stepCore {p q : SysState × Nat} (h : Inv p.1 p.2)
    (hstep : StepCore p q) : Inv q.1 q.2 := by
  cases hstep with
  | createAgent s t request now ht =>
    exact inv_createAgent request h (le_of_lt ht)
  | createGroup s t request now ht =>
    exact inv_createGroup request h (le_of_lt ht)
  | addAgentToGroup s t groupId agentId now ht =>
    exact inv_addAgentToGroup h (le_of_lt ht)
  | updateAgentStatus s t id status now ht hstatus hagent =>
    exact inv_updateAgentStatus h (le_of_lt ht) hstatus hagent
  | handleIncomingCall s t phoneNumber callerNumber acsEventData now ht =>
    exact inv_handleIncomingCall phoneNumber callerNumber acsEventData h (le_of_lt ht)
  | answerCall s t callId agentId acsAnswerSuccess now ht =>
    exact inv_answerCall h (le_of_lt ht)
  | endCall s t callId agentId acsEndSuccess now ht hnotEnded =>
    exact inv_endCall h ht hnotEnded

theorem inv_reachableCore {p : SysState × Nat} (h : ReachableCore p) :
    Inv p.1 p.2 := by
  induction h with
  | init => exact inv_init
  | step hr hstep ih => exact inv_stepCore ih hstep

theorem inv_implies_consistent {s : SysState} {t : Nat} (h : Inv s t) :
    agentCallConsistent s := by
  intro agent hagent
  have hget : mapGet s.agents agent.id = some agent :=
    mapGet_of_mem_values Agent.id h.agentKeys h.agentNodup hagent
  refine ⟨h.statusCur agent.id agent hget, ?_, ?_⟩
  · constructor
    · intro hin
      have hsome := (h.statusCur agent.id agent hget).1 hin
      rcases hcur : agent.currentCallId with _ | cid
      · rw [hcur] at hsome
        cases hsome
      · obtain ⟨c, hc1, hc2, hc3⟩ := h.curLive agent.id agent cid hget hcur
        exact ⟨c, values_mem_of_mapGet hc1, hc2, hc3⟩
    · rintro ⟨call, hmemc, hassigned, hlive⟩
      have hgetc : mapGet s.calls call.id = some call :=
        mapGet_of_mem_values Call.id h.callKeys h.callNodup hmemc
      obtain ⟨b, hb1, hb2⟩ := h.liveCur call.id call hgetc hlive agent.id hassigned
      rw [hget] at hb1
      cases hb1
      exact (h.statusCur agent.id agent hget).2 (by rw [hb2]; rfl)
  · intro c1 hm1 c2 hm2 ha1 ha2 hl1 hl2
    have hg1 : mapGet s.calls c1.id = some c1 :=
      mapGet_of_mem_values Call.id h.callKeys h.callNodup hm1
    have hg2 : mapGet s.calls c2.id = some c2 :=
      mapGet_of_mem_values Call.id h.callKeys h.callNodup hm2
    obtain ⟨b1, hb11, hb12⟩ := h.liveCur c1.id c1 hg1 hl1 agent.id ha1
    obtain ⟨b2, hb21, hb22⟩ := h.liveCur c2.id c2 hg2 hl2 agent.id ha2
    rw [hget] at hb11 hb21
    cases hb11
    cases hb21
    rw [hb12] at hb22
    have hid : c1.id = c2.id := Option.some.inj hb22
    rw [hid, hg2] at hg1
    exact (Option.some.inj hg1).symm

/-- C1 counterexample: the consistency property fails in a state
reachable by the claim's own public operations.  From the boot state,
`createAgent` (agent 0, `OFFLINE`) followed by the public
`updateAgentStatus(0, IN_CALL)` yields `cxC1`, where agent 0 has
`status = IN_CALL` but `currentCallId` unset and no call at all — so the
claimed equivalence, and hence the claim as stated, is false. -/
theorem C1_consistency_cex :
    ReachableFull cxC1 ∧ ¬ agentCallConsistent cxC1 ∧ ¬ claimC1 := by
  have hreach : ReachableFull cxC1 :=
    ReachableFull.step
      (ReachableFull.step ReachableFull.init
        (StepFull.createAgent initialState wAgentReq 0))
      (StepFull.updateAgentStatus w1 0 AgentStatus.in_call 3)
  have hnot : ¬ agentCallConsistent cxC1 := by decide
  exact ⟨hreach, hnot, fun hclaim => hnot (hclaim cxC1 hreach)⟩

/-- C1 amended: the three-way consistency — `status == IN_CALL` iff
`currentCallId` is set, iff exactly one live (`RINGING`/`CONNECTED`)
call is assigned to the agent, and never two live calls at once — holds
in every state reachable by `createAgent`, `createGroup`,
`addAgentToGroup`, `updateAgentStatus` restricted to non-`IN_CALL`
transitions of agents not currently `IN_CALL`, `handleIncomingCall`,
`answerCall`, and `endCall` on not-already-`ENDED` calls, with the wall
clock strictly increasing between operations.  The excluded cases are
real violations: unrestricted `updateAgentStatus` (the counterexample),
direct `releaseAgentFromCall`, `transferCall` (claims C3/C10: the origin
agent of a live call is never released, and the target is bound to a
no-longer-live `TRANSFERRED` call), and double `endCall` (claim C2). -/
theorem C1_consistency_amended (s : SysState) (t : Nat)
    (h : ReachableCore (s, t)) : agentCallConsistent s :=
  inv_implies_consistent (inv_reachableCore h)

/-- Witness for the amended C1: the full scenario — two agents, one
group, both agents made available, an inbound call routed to agent 0,
answered, then ended — replayed at strictly increasing instants is a
`ReachableCore` run, and the consistency property holds in its final
state. -/
theorem C1_consistency_amended_witness :
    ReachableCore (wc10, 10) ∧ agentCallConsistent wc10 := by
  have h1 : ReachableCore (wc1, 1) :=
    ReachableCore.init.step
      (StepCore.createAgent initialState 0 wAgentReq 1 (by decide))
  have h2 : ReachableCore (wc2, 2) :=
    h1.step (StepCore.createAgent wc1 1 wAgentReq2 2 (by decide))
  have h3 : ReachableCore (wc3, 3) :=
    h2.step (StepCore.createGroup wc2 2 wGroupReq 3 (by decide))
  have h4 : ReachableCore (wc4, 4) :=
    h3.step (StepCore.addAgentToGroup wc3 3 2 0 4 (by decide))
  have h5 : ReachableCore (wc5, 5) :=
    h4.step (StepCore.addAgentToGroup wc4 4 2 1 5 (by decide))
  have h6 : ReachableCore (wc6, 6) :=
    h5.step (StepCore.updateAgentStatus wc5 5 0 AgentStatus.available 6
      (by decide) (by decide)
      (by
        intro a ha
        have hval : mapGet wc5.agents 0 =
            some ((mapGet wc5.agents 0).getD default) := by decide
        rw [hval] at ha
        cases ha
        decide))
  have h7 : ReachableCore (wc7, 7) :=
    h6.step (StepCore.updateAgentStatus wc6 6 1 AgentStatus.available 7
      (by decide) (by decide)
      (by
        intro a ha
        have hval : mapGet wc6.agents 1 =
            some ((mapGet wc6.agents 1).getD default) := by decide
        rw [hval] at ha
        cases ha
        decide))
  have h8 : ReachableCore (wc8, 8) :=
    h7.step (StepCore.handleIncomingCall wc7 7 "+100" "+200" none 8 (by decide))
  have h9 : ReachableCore (wc9, 9) :=
    h8.step (StepCore.answerCall wc8 8 3 0 true 9 (by decide))
  have h10 : ReachableCore (wc10, 10) :=
    h9.step (StepCore.endCall wc9 9 3 (some 0) true 10 (by decide)
      (by
        intro c hcget
        have hval : mapGet wc9.calls 3 =
            some ((mapGet wc9.calls 3).getD default) := by decide
        rw [hval] at hcget
        cases hcget
        decide))
  exact ⟨h10, C1_consistency_amended wc10 10 h10⟩

end ACS
